import Mathlib

/-!
# NS-3 assignment topology: a verification development

The two simulation scripts `code.cc` and `scratch/assignment_topology.cc`
are embedded as Lean definitions: the node containers, the point-to-point
`Install` calls in source order, the error-model loop, the address loop and
the flow report `PrintFlowStats`.

Conventions of the embedding:

* node identifiers are natural numbers handed out in creation order, so
  `hosts.Create(7)` yields 0..6 and `routers.Create(4)` yields 7..10;
* times are natural numbers of nanoseconds (the simulator's `Time`
  resolution); `GetSeconds` is the exact rational `ns / 10^9`;
* a `double` is a finite exact rational or one of infinity, minus infinity
  and NaN: division by zero yields the special values as in the C++ code,
  the rounding of finite results is not modelled;
* data rates are in bits per second, queue sizes in packets.
-/

namespace NS3Sim

/-! ## Nodes, devices and helpers -/

abbrev NodeId := Nat

/-- Virtual time in nanoseconds. -/
abbrev Time := Nat

def Seconds (s : Nat) : Time := s * 1000000000

def MilliSeconds (ms : Nat) : Time := ms * 1000000

/-- An IPv4 address, octet by octet. -/
structure Ipv4Address where
  o1 : Nat
  o2 : Nat
  o3 : Nat
  o4 : Nat
deriving DecidableEq, Repr

/-- The object built by `CreateObject<RateErrorModel>()` and `SetRate(r)`;
the rate is kept as the fraction `rateNum / rateDen`. -/
structure RateErrorModel where
  rateNum : Nat
  rateDen : Nat
deriving DecidableEq, Repr

/-- A point-to-point net device: the node it sits on, the attributes the
helper gave it, its `ReceiveErrorModel` attribute (a null pointer until set)
and its interface address (none until `Assign`). -/
structure NetDevice where
  node : NodeId
  dataRate : Nat
  queueMaxSize : Nat
  channelDelay : Time
  receiveErrorModel : Option RateErrorModel
  address : Option Ipv4Address
deriving DecidableEq, Repr

abbrev NetDeviceContainer := List NetDevice

/-- Element `i` of a container: `NetDeviceContainer::Get(i)`; out of range is
an error in the library, `none` here. -/
def NetDeviceContainer.Get (c : NetDeviceContainer) (i : Nat) : Option NetDevice :=
  c.get? i

structure NodeContainer where
  nodes : List NodeId
deriving DecidableEq, Repr

/-- The call `Create(n)` of the library, which is not among the sources: nodes
are numbered in creation order, so `Create n` called when `next` nodes exist
yields the identifiers `next .. next + n - 1`. -/
def NodeContainer.Create (next n : Nat) : NodeContainer :=
  ⟨List.range' next n⟩

def NodeContainer.Get (c : NodeContainer) (i : Nat) : NodeId :=
  c.nodes.getD i 0

/-- `hosts.Create(7)`: the first seven nodes. -/
def hosts : NodeContainer := NodeContainer.Create 0 7

/-- `routers.Create(4)`: the next four nodes. -/
def routers : NodeContainer := NodeContainer.Create 7 4

/-- The attributes a `PointToPointHelper` holds when `Install` is called. -/
structure PointToPointHelper where
  dataRate : Nat
  delay : Time
  queueMaxSize : Nat
deriving DecidableEq, Repr

def PointToPointHelper.SetDataRate (h : PointToPointHelper) (r : Nat) : PointToPointHelper :=
  { h with dataRate := r }

/-- The call `Install(a, b)` of the library, which is not among the sources: it
creates one channel and two devices, the first on `a` and the second on `b`,
and returns them in that order. -/
def PointToPointHelper.Install (h : PointToPointHelper) (a b : NodeId) : NetDeviceContainer :=
  [ { node := a, dataRate := h.dataRate, queueMaxSize := h.queueMaxSize,
      channelDelay := h.delay, receiveErrorModel := none, address := none },
    { node := b, dataRate := h.dataRate, queueMaxSize := h.queueMaxSize,
      channelDelay := h.delay, receiveErrorModel := none, address := none } ]

def Mbps (n : Nat) : Nat := n * 1000000

/-- Queue size of a point-to-point device when the script does not call
`SetQueue`: the library default `100p`. -/
def defaultQueueMaxSize : Nat := 100

/-! ## code.cc: device array, error-model loop, address loop -/

namespace Code

/-- The helper `conn` after lines 80-85: delay 1 ms, 10 Mbps, queue `100p`. -/
def conn : PointToPointHelper :=
  { dataRate := Mbps 10, delay := MilliSeconds 1, queueMaxSize := 100 }

/-- One statement `devices[slot] = conn.Install(a, b)` with the helper's data
rate at that point of the program. -/
structure InstallStmt where
  slot : Nat
  a : NodeId
  b : NodeId
  rate : Nat
deriving DecidableEq, Repr

/-- Lines 87-107 of `code.cc`, in source order (slot 3 is written after
slots 4, 5 and 6). -/
def installStmts : List InstallStmt :=
  [ ⟨0, hosts.Get 0, routers.Get 0, Mbps 10⟩,
    ⟨1, hosts.Get 1, routers.Get 0, Mbps 10⟩,
    ⟨2, hosts.Get 2, routers.Get 2, Mbps 10⟩,
    ⟨4, hosts.Get 4, routers.Get 1, Mbps 10⟩,
    ⟨5, hosts.Get 5, routers.Get 1, Mbps 10⟩,
    ⟨6, hosts.Get 6, routers.Get 3, Mbps 10⟩,
    ⟨3, hosts.Get 3, routers.Get 2, Mbps 15⟩,
    ⟨7, routers.Get 0, routers.Get 1, Mbps 20⟩,
    ⟨8, routers.Get 0, routers.Get 2, Mbps 25⟩,
    ⟨9, routers.Get 2, routers.Get 3, Mbps 30⟩,
    ⟨10, routers.Get 1, routers.Get 3, Mbps 20⟩ ]

/-- The declaration `NetDeviceContainer devices[11]`: eleven empty containers. -/
def devicesInit : List NetDeviceContainer := List.replicate 11 []

def execInstall (devs : List NetDeviceContainer) (s : InstallStmt) : List NetDeviceContainer :=
  devs.set s.slot ((conn.SetDataRate s.rate).Install s.a s.b)

/-- The array `devices` after line 107. -/
def devicesInstalled : List NetDeviceContainer :=
  installStmts.foldl execInstall devicesInit

/-- Lines 109-110: the one shared error model, rate 0.005. -/
def errorModel : RateErrorModel := { rateNum := 5, rateDen := 1000 }

/-- The statement `c.Get(1)->SetAttribute("ReceiveErrorModel", em)`; `none`
when the container has no element 1. -/
def setReceiveErrorModelOnGet1 (em : RateErrorModel) (c : NetDeviceContainer) :
    Option NetDeviceContainer :=
  match c.Get 1 with
  | none => none
  | some d => some (c.set 1 { d with receiveErrorModel := some em })

/-- Lines 111-113: the loop `for i in 0..10` over `devices[i].Get(1)`. -/
def errorModelLoop (devs : List NetDeviceContainer) : Option (List NetDeviceContainer) :=
  (List.range 11).foldlM
    (fun ds i => (setReceiveErrorModelOnGet1 errorModel (ds.getD i [])).map (fun c => ds.set i c))
    devs

/-- The subnet string `"10.1." << i + 1 << ".0"` of line 122, as octets. -/
def subnet (i : Nat) : Ipv4Address := ⟨10, 1, i + 1, 0⟩

end Code

/-- The helper call `SetBase(network, "255.255.255.0")` followed by
`Assign(c)`. The address helper is library code that is not among the sources
and that the spec does not describe; it is modelled as handing out the host
numbers 1, 2, ... of the network to the devices of `c` in container order. -/
def assignAddresses (network : Ipv4Address) (c : NetDeviceContainer) : NetDeviceContainer :=
  c.enum.map (fun p => { p.2 with address := some { network with o4 := p.1 + 1 } })

namespace Code

/-- Lines 119-125: the address loop. -/
def addressLoop (devs : List NetDeviceContainer) : List NetDeviceContainer :=
  (List.range 11).foldl (fun ds i => ds.set i (assignAddresses (subnet i) (ds.getD i []))) devs

/-- The array `devices` when `PopulateRoutingTables` is called (line 127). -/
def devicesFinal : Option (List NetDeviceContainer) :=
  (errorModelLoop devicesInstalled).map addressLoop

/-- Line 53: the echo client's remote address. -/
def clientRemote : Ipv4Address := ⟨10, 1, 5, 1⟩

/-- Line 49: the node the echo server is installed on. -/
def serverNode : NodeId := hosts.Get 4

/-- Line 58: the node the echo client is installed on. -/
def clientNode : NodeId := hosts.Get 0

end Code

/-! ## assignment_topology.cc -/

namespace Assignment

/-- The helper `p2p` after lines 47-49 (no `SetQueue` call). -/
def p2p : PointToPointHelper :=
  { dataRate := Mbps 1, delay := MilliSeconds 1, queueMaxSize := defaultQueueMaxSize }

def devicesA_R1 : NetDeviceContainer := p2p.Install (hosts.Get 0) (routers.Get 0)
def devicesB_R1 : NetDeviceContainer := p2p.Install (hosts.Get 1) (routers.Get 0)
def devicesC_R3 : NetDeviceContainer := p2p.Install (hosts.Get 2) (routers.Get 2)
def devicesD_R3 : NetDeviceContainer := p2p.Install (hosts.Get 3) (routers.Get 2)
def devicesE_R2 : NetDeviceContainer := p2p.Install (hosts.Get 4) (routers.Get 1)
def devicesF_R2 : NetDeviceContainer := p2p.Install (hosts.Get 5) (routers.Get 1)
def devicesG_R4 : NetDeviceContainer := p2p.Install (hosts.Get 6) (routers.Get 3)
def devicesR1_R2 : NetDeviceContainer :=
  (p2p.SetDataRate (Mbps 3)).Install (routers.Get 0) (routers.Get 1)
def devicesR1_R3 : NetDeviceContainer :=
  (p2p.SetDataRate (Mbps 3)).Install (routers.Get 0) (routers.Get 2)
def devicesR3_R4 : NetDeviceContainer :=
  (p2p.SetDataRate (Mbps 3)).Install (routers.Get 2) (routers.Get 3)
def devicesR2_R4 : NetDeviceContainer :=
  ((p2p.SetDataRate (Mbps 3)).SetDataRate (Mbps 1)).Install (routers.Get 1) (routers.Get 3)

/-- The containers in the order of their declarations (lines 52-68). -/
def devicesInstalled : List NetDeviceContainer :=
  [devicesA_R1, devicesB_R1, devicesC_R3, devicesD_R3, devicesE_R2, devicesF_R2,
   devicesG_R4, devicesR1_R2, devicesR1_R3, devicesR3_R4, devicesR2_R4]

/-- Lines 80-102: the pairs `SetBase(network, ...)`, `Assign(container)`. -/
def devicesFinal : List NetDeviceContainer :=
  [ assignAddresses ⟨10, 1, 1, 0⟩ devicesA_R1,
    assignAddresses ⟨10, 1, 2, 0⟩ devicesB_R1,
    assignAddresses ⟨10, 1, 3, 0⟩ devicesC_R3,
    assignAddresses ⟨10, 1, 4, 0⟩ devicesD_R3,
    assignAddresses ⟨10, 1, 5, 0⟩ devicesE_R2,
    assignAddresses ⟨10, 1, 6, 0⟩ devicesF_R2,
    assignAddresses ⟨10, 1, 7, 0⟩ devicesG_R4,
    assignAddresses ⟨10, 1, 8, 0⟩ devicesR1_R2,
    assignAddresses ⟨10, 1, 9, 0⟩ devicesR1_R3,
    assignAddresses ⟨10, 1, 10, 0⟩ devicesR3_R4,
    assignAddresses ⟨10, 1, 11, 0⟩ devicesR2_R4 ]

/-- Line 116: the echo client's remote address. -/
def clientRemote : Ipv4Address := ⟨10, 1, 5, 1⟩

/-- Line 112: the node the echo server is installed on. -/
def serverNode : NodeId := hosts.Get 4

/-- Line 120: the node the echo client is installed on. -/
def clientNode : NodeId := hosts.Get 0

end Assignment

/-! ## The graph a script builds -/

/-- The endpoint pair of a link, read off the two devices of its container. -/
def endpoints (c : NetDeviceContainer) : Option (NodeId × NodeId) :=
  match c with
  | [d0, d1] => some (d0.node, d1.node)
  | _ => none

/-- The endpoint pairs of all links, in container order; `none` if some
container is not a two-device container. -/
def linkPairs (devs : List NetDeviceContainer) : Option (List (NodeId × NodeId)) :=
  devs.mapM endpoints

/-- All nodes created by a script: hosts then routers. -/
def allNodes : List NodeId := hosts.nodes ++ routers.nodes

/-- The unordered pair as a sorted ordered pair. -/
def unordered (p : NodeId × NodeId) : NodeId × NodeId :=
  if p.1 ≤ p.2 then p else (p.2, p.1)

/-- The network of an address under the mask 255.255.255.0. -/
def networkOf (a : Ipv4Address) : Ipv4Address := { a with o4 := 0 }

/-- All devices that carry the interface address `a`. -/
def devicesWithAddress (devs : List NetDeviceContainer) (a : Ipv4Address) : List NetDevice :=
  devs.flatten.filter (fun d => d.address = some a)

/-- All devices installed on node `n`. -/
def devicesOnNode (devs : List NetDeviceContainer) (n : NodeId) : List NetDevice :=
  devs.flatten.filter (fun d => d.node = n)

/-! ## PrintFlowStats (code.cc lines 23-45) -/

/-- The fields of `FlowMonitor::FlowStats` that `PrintFlowStats` reads. -/
structure FlowStats where
  txPackets : Nat
  rxPackets : Nat
  lostPackets : Nat
  rxBytes : Nat
  timeFirstTxPacket : Time
  timeLastRxPacket : Time
  delaySum : Time
deriving DecidableEq, Repr

/-- The method `Time::GetSeconds()`: nanoseconds over `10^9`, as an exact
rational (the rounding of the `double` result is not modelled). -/
def GetSeconds (t : Time) : ℚ := (t : ℚ) / 1000000000

/-- A value of type `double`: a finite number, kept as an exact rational (the
rounding of finite results is not modelled), or one of the special values a
division can produce. -/
inductive DoubleVal where
  | finite (q : ℚ)
  | posInf
  | negInf
  | nan
deriving DecidableEq

/-- Division of `double` values. A finite non-zero number over zero is an
infinity with the sign of the numerator, zero over zero is NaN; the zero
divisor is taken as `+0.0`, the value of `x - x`. -/
def DoubleVal.div : DoubleVal → DoubleVal → DoubleVal
  | DoubleVal.nan, _ => DoubleVal.nan
  | _, DoubleVal.nan => DoubleVal.nan
  | DoubleVal.finite a, DoubleVal.finite b =>
      if b = 0 then
        (if a = 0 then DoubleVal.nan else if 0 < a then DoubleVal.posInf else DoubleVal.negInf)
      else DoubleVal.finite (a / b)
  | DoubleVal.finite _, DoubleVal.posInf => DoubleVal.finite 0
  | DoubleVal.finite _, DoubleVal.negInf => DoubleVal.finite 0
  | DoubleVal.posInf, DoubleVal.finite b => if b < 0 then DoubleVal.negInf else DoubleVal.posInf
  | DoubleVal.negInf, DoubleVal.finite b => if b < 0 then DoubleVal.posInf else DoubleVal.negInf
  | DoubleVal.posInf, DoubleVal.posInf => DoubleVal.nan
  | DoubleVal.posInf, DoubleVal.negInf => DoubleVal.nan
  | DoubleVal.negInf, DoubleVal.posInf => DoubleVal.nan
  | DoubleVal.negInf, DoubleVal.negInf => DoubleVal.nan

/-- One `NS_LOG_INFO` line of the report. -/
inductive LogLine where
  | banner
  | flow (id : Nat) (sourceAddress destinationAddress : Ipv4Address)
  | txPackets (n : Nat)
  | rxPackets (n : Nat)
  | lostPackets (n : Nat)
  | throughput (mbps : DoubleVal)
  | endToEndDelay (seconds : DoubleVal)
deriving DecidableEq

/-- The expression of lines 37-39:
`(rxBytes * 8.0 / (timeLastRxPacket.GetSeconds() - timeFirstTxPacket.GetSeconds())) / 1024 / 1024`. -/
def throughputMbps (s : FlowStats) : DoubleVal :=
  (((DoubleVal.finite ((s.rxBytes : ℚ) * 8)).div
      (DoubleVal.finite (GetSeconds s.timeLastRxPacket - GetSeconds s.timeFirstTxPacket))).div
    (DoubleVal.finite 1024)).div (DoubleVal.finite 1024)

/-- The expression of line 42: `delaySum.GetSeconds() / rxPackets`. -/
def delaySeconds (s : FlowStats) : DoubleVal :=
  (DoubleVal.finite (GetSeconds s.delaySum)).div (DoubleVal.finite (s.rxPackets : ℚ))

/-- The body of the loop of `PrintFlowStats` for one flow (lines 30-43). -/
def printFlow (id : Nat) (src dst : Ipv4Address) (s : FlowStats) : List LogLine :=
  [ LogLine.flow id src dst,
    LogLine.txPackets s.txPackets,
    LogLine.rxPackets s.rxPackets,
    LogLine.lostPackets s.lostPackets ] ++
  (if s.rxPackets > 0 then
    [ LogLine.throughput (throughputMbps s), LogLine.endToEndDelay (delaySeconds s) ]
  else [])

/-- The report of `PrintFlowStats`: `FindFlow` is the classifier lookup,
`stats` the container returned by `GetFlowStats`. -/
def PrintFlowStats (FindFlow : Nat → Ipv4Address × Ipv4Address) (stats : List (Nat × FlowStats)) :
    List LogLine :=
  LogLine.banner ::
    stats.flatMap (fun f => printFlow f.1 (FindFlow f.1).1 (FindFlow f.1).2 f.2)

/-- The throughput values among a list of report lines. -/
def throughputValues (ls : List LogLine) : List DoubleVal :=
  ls.filterMap (fun l => match l with
    | LogLine.throughput q => some q
    | _ => none)

/-- The delay values among a list of report lines. -/
def delayValues (ls : List LogLine) : List DoubleVal :=
  ls.filterMap (fun l => match l with
    | LogLine.endToEndDelay q => some q
    | _ => none)

/-- The flow headers and the tx, rx and lost lines among a list of report
lines. -/
def countLines (ls : List LogLine) : List LogLine :=
  ls.filter (fun l => match l with
    | LogLine.flow _ _ _ => true
    | LogLine.txPackets _ => true
    | LogLine.rxPackets _ => true
    | LogLine.lostPackets _ => true
    | _ => false)

/-- A flow that received 131072 bytes in one packet, one second after the
first transmission. -/
def sampleFlow : FlowStats :=
  { txPackets := 1, rxPackets := 1, lostPackets := 0, rxBytes := 131072,
    timeFirstTxPacket := 0, timeLastRxPacket := Seconds 1, delaySum := Seconds 1 }

/-- A flow whose one packet of 256 bytes is recorded as received at the
instant of its first transmission. -/
def instantFlow : FlowStats :=
  { txPackets := 1, rxPackets := 1, lostPackets := 0, rxBytes := 256,
    timeFirstTxPacket := Seconds 2, timeLastRxPacket := Seconds 2, delaySum := 0 }

/-- A flow none of whose three packets arrived. -/
def silentFlow : FlowStats :=
  { txPackets := 3, rxPackets := 0, lostPackets := 3, rxBytes := 0,
    timeFirstTxPacket := Seconds 2, timeLastRxPacket := 0, delaySum := 0 }

/-! ## Topology model and routing table builder -/

abbrev LinkId := Nat

/-- Modelled from the spec: the Link of the data model (section 3), which the
simulation library keeps and the sources do not contain. A link joins two
node endpoints and carries a data rate (bits per second), a propagation
delay, a queue capacity (packets) and an error model; the error model is kept
per receiving endpoint, `rxErrorA` for packets arriving at `a` and `rxErrorB`
for packets arriving at `b`, absent meaning error rate 0. -/
structure Link where
  a : NodeId
  b : NodeId
  rate : Nat
  delay : Time
  queueCapacity : Nat
  rxErrorA : Option RateErrorModel
  rxErrorB : Option RateErrorModel
deriving DecidableEq, Repr

/-- Modelled from the spec: the Topology Model (section 4.2), an undirected
multigraph over the nodes `0 .. nodeCount - 1`; links are identified by their
position in `links`. -/
structure Topology where
  nodeCount : Nat
  links : List Link
deriving DecidableEq, Repr

/-- The link a device container stands for: `add_link` with the attributes of
its two devices. -/
def linkOfContainer (c : NetDeviceContainer) : Option Link :=
  match c with
  | [d0, d1] =>
      some { a := d0.node, b := d1.node, rate := d0.dataRate, delay := d0.channelDelay,
             queueCapacity := d0.queueMaxSize,
             rxErrorA := d0.receiveErrorModel, rxErrorB := d1.receiveErrorModel }
  | _ => none

/-- The topology a script has built when `PopulateRoutingTables` runs. -/
def topologyOf (devs : List NetDeviceContainer) : Option Topology :=
  (devs.mapM linkOfContainer).map (fun ls => { nodeCount := allNodes.length, links := ls })

/-- The far endpoint of link `l` seen from node `u`, if `u` is an endpoint. -/
def Link.other (l : Link) (u : NodeId) : Option NodeId :=
  if l.a = u then some l.b else if l.b = u then some l.a else none

/-- The (neighbour, link) pairs of node `u`, in link order. -/
def Topology.neighbours (t : Topology) (u : NodeId) : List (NodeId × LinkId) :=
  t.links.enum.filterMap (fun p => (p.2.other u).map (fun v => (v, p.1)))

/-- The nodes joined to node `u` by a link, in link order. -/
def Topology.nbrs (t : Topology) (u : NodeId) : List NodeId :=
  t.links.filterMap (fun l => l.other u)

/-- Node `v` is joined to node `u` by some link. -/
def Topology.adj (t : Topology) (u v : NodeId) : Bool :=
  t.links.any (fun l => l.other u == some v)

/-- A walk: every two consecutive nodes are joined by a link. -/
def Topology.isWalk (t : Topology) : List NodeId → Bool
  | [] => true
  | [_] => true
  | u :: v :: rest => t.adj u v && t.isWalk (v :: rest)

/-- Existence of a finite path between two nodes. -/
inductive Topology.Reachable (t : Topology) : NodeId → NodeId → Prop where
  | refl (u : NodeId) : Topology.Reachable t u u
  | step (u v w : NodeId) : t.adj u v = true → Topology.Reachable t v w →
      Topology.Reachable t u w

/-- The smaller of two optional distances, `none` standing for infinity. -/
def minDist : Option Nat → Option Nat → Option Nat
  | none, d => d
  | d, none => d
  | some x, some y => some (min x y)

/-- One relaxation round of the shortest-path search with edge weight `w`:
every node takes the best of its current distance and its neighbours'
distances plus the joining link's weight. -/
def relax (t : Topology) (w : Link → Nat) (dist : List (Option Nat)) : List (Option Nat) :=
  (List.range t.nodeCount).map (fun v =>
    t.links.foldl
      (fun best l =>
        match l.other v with
        | none => best
        | some u => minDist best ((dist.getD u none).map (fun d => d + w l)))
      (dist.getD v none))

/-- Modelled from the spec: the single-source shortest-path search of the
Routing Table Builder (section 4.4), which the sources only call
(`PopulateRoutingTables`). Distances from `src` after `nodeCount` relaxation
rounds; `none` marks an unreachable node. -/
def sssp (t : Topology) (w : Link → Nat) (src : NodeId) : List (Option Nat) :=
  Nat.iterate (relax t w) t.nodeCount
    ((List.range t.nodeCount).map (fun v => if v = src then some 0 else none))

/-- An entry of a node's routing table for one destination. -/
inductive RoutingEntry where
  | deliverLocal
  | via (link : LinkId) (next : NodeId)
  | noRoute
deriving DecidableEq, Repr

/-- The entry names a next hop. -/
def RoutingEntry.isVia : RoutingEntry → Bool
  | RoutingEntry.via _ _ => true
  | _ => false

/-- The better of two next-hop candidates: lowest neighbouring node
identifier, then lowest link identifier. -/
def betterHop (x y : NodeId × LinkId) : NodeId × LinkId :=
  if x.1 < y.1 ∨ (x.1 = y.1 ∧ x.2 ≤ y.2) then x else y

/-- Modelled from the spec: the entry of node `u` for destination `d` given
the distance tables `dist[v][d]`: among the neighbours lying on a shortest
path, the one with the lowest node identifier; `noRoute` when `d` is
unreachable. -/
def routeEntry (t : Topology) (w : Link → Nat) (dist : List (List (Option Nat)))
    (u d : NodeId) : RoutingEntry :=
  if u = d then RoutingEntry.deliverLocal
  else
    match (dist.getD u []).getD d none with
    | none => RoutingEntry.noRoute
    | some du =>
        let cands := (t.neighbours u).filter (fun p =>
          match (dist.getD p.1 []).getD d none, t.links.get? p.2 with
          | some dv, some l => dv + w l == du
          | _, _ => false)
        match cands with
        | [] => RoutingEntry.noRoute
        | c :: cs => let h := cs.foldl betterHop c
                     RoutingEntry.via h.2 h.1

/-- Modelled from the spec: `build(Topology)` of the Routing Table Builder
(section 4.4): one shortest-path search per source node, then for every
(node, destination) pair the next hop, with unreachable pairs recorded as
`noRoute`. The result is indexed `[node][destination]`. -/
def build (t : Topology) (w : Link → Nat) : List (List RoutingEntry) :=
  let dist := (List.range t.nodeCount).map (sssp t w)
  (List.range t.nodeCount).map (fun u =>
    (List.range t.nodeCount).map (fun d => routeEntry t w dist u d))

/-- Edge weight: hop count. -/
def hopWeight (_ : Link) : Nat := 1

/-- Edge weight: propagation delay. -/
def delayWeight (l : Link) : Nat := l.delay

def lookup (table : List (List RoutingEntry)) (u d : NodeId) : RoutingEntry :=
  (table.getD u []).getD d RoutingEntry.noRoute

/-- Follow next hops from `u` towards `d` for at most `fuel` steps; the nodes
visited, or `none` if a `noRoute` entry is met or the fuel runs out. -/
def followRoute (table : List (List RoutingEntry)) (d : NodeId) : Nat → NodeId → Option (List NodeId)
  | 0, u => if u = d then some [u] else none
  | fuel + 1, u =>
      match lookup table u d with
      | RoutingEntry.deliverLocal => some [u]
      | RoutingEntry.noRoute => none
      | RoutingEntry.via _ v => (followRoute table d fuel v).map (fun p => u :: p)

/-- The route from `a` to `b` found by following next hops is a walk of the
topology from `a` to `b` that visits no node twice. -/
def routeReaches (t : Topology) (table : List (List RoutingEntry)) (a b : NodeId) : Bool :=
  (followRoute table b t.nodeCount a).any (fun p =>
    t.isWalk p && (p.head? == some a) && (p.getLast? == some b) && decide p.Nodup)

/-- The cheapest weight of a link joining `u` and `v`. -/
def Topology.stepCost (t : Topology) (w : Link → Nat) (u v : NodeId) : Option Nat :=
  t.links.foldl
    (fun best l => if l.other u = some v then minDist best (some (w l)) else best) none

/-- The cost of a walk: the sum of its steps' cheapest link weights. -/
def Topology.walkCost (t : Topology) (w : Link → Nat) : List NodeId → Option Nat
  | [] => some 0
  | [_] => some 0
  | u :: v :: rest =>
      match t.stepCost w u v, t.walkCost w (v :: rest) with
      | some c, some r => some (c + r)
      | _, _ => none

/-- The topology built by `assignment_topology.cc`. -/
def Assignment.topology : Topology :=
  (topologyOf Assignment.devicesFinal).getD { nodeCount := 0, links := [] }

/-- The topology built by `code.cc`. -/
def Code.topology : Topology :=
  ((Code.devicesFinal).bind topologyOf).getD { nodeCount := 0, links := [] }

/-! ## Event scheduler -/

/-- Modelled from the spec: the Event of the data model (section 3): a
callback (here the data `action`) with a virtual-time stamp, an insertion
sequence number and a cancelled flag. -/
structure Event (α : Type) where
  time : Time
  seq : Nat
  cancelled : Bool
  action : α
deriving DecidableEq, Repr

/-- The total order of events: by time stamp, then by insertion sequence. -/
def Event.before {α : Type} (e f : Event α) : Bool :=
  decide (e.time < f.time) || (decide (e.time = f.time) && decide (e.seq < f.seq))

/-- Insert an event into a queue kept in dispatch order. -/
def insertEvent {α : Type} (e : Event α) : List (Event α) → List (Event α)
  | [] => [e]
  | f :: fs => if e.before f then e :: f :: fs else f :: insertEvent e fs

/-- Modelled from the spec: the Event Scheduler (section 4.1), which the
sources only drive through `Start`, `Stop`, `Simulator::Stop` and
`Simulator::Run`. -/
structure Scheduler (α : Type) where
  now : Time
  nextSeq : Nat
  queue : List (Event α)
deriving DecidableEq, Repr

/-- The call `schedule(delay, callback)`: the new scheduler and the handle of
the event, its sequence number. Delays are natural numbers, so a negative
delay cannot be expressed. -/
def Scheduler.schedule {α : Type} (s : Scheduler α) (delay : Time) (a : α) : Scheduler α × Nat :=
  ({ s with nextSeq := s.nextSeq + 1,
            queue := insertEvent
              { time := s.now + delay, seq := s.nextSeq, cancelled := false, action := a } s.queue },
   s.nextSeq)

/-- The call `cancel(handle)`: flag the event; no effect when it has fired
(it is then no longer queued). The event stays in the queue and is skipped at
dispatch. -/
def Scheduler.cancel {α : Type} (s : Scheduler α) (h : Nat) : Scheduler α :=
  { s with queue := s.queue.map (fun e => if e.seq = h then { e with cancelled := true } else e) }

/-- A simulation state: the scheduler and the state of the components. -/
structure World (σ α : Type) where
  sched : Scheduler α
  st : σ

/-- Modelled from the spec: `run_until(stop_time)` (section 4.1): dispatch
events in order until the queue is empty or the next event is later than
`stop`; cancelled events are skipped. At most `fuel` events are taken from the
queue; `none` means the fuel ran out before the run halted. -/
def run_until {σ α : Type} (handle : α → World σ α → World σ α) (stop : Time) :
    Nat → World σ α → Option (World σ α)
  | 0, w =>
      match w.sched.queue with
      | [] => some w
      | e :: _ => if stop < e.time then some w else none
  | fuel + 1, w =>
      match w.sched.queue with
      | [] => some w
      | e :: rest =>
          if stop < e.time then some w
          else if e.cancelled then
            run_until handle stop fuel { w with sched := { w.sched with queue := rest } }
          else
            run_until handle stop fuel
              (handle e.action { w with sched := { w.sched with now := e.time, queue := rest } })

/-! ## Echo client -/

/-- The attributes of the echo client set by a script. -/
structure ClientConfig where
  maxPackets : Nat
  interval : Time
  packetSize : Nat
deriving DecidableEq, Repr

/-- The state of a client: packets sent so far and the handle of the pending
send event. -/
structure ClientState where
  sent : Nat
  sendEvent : Option Nat
deriving DecidableEq, Repr

/-- Modelled from the spec: one send of the Traffic Generator (section 4.5).
The counter of sent packets is bounded by the configured maximum: while it is
below the maximum the send happens (result `true`: a packet is handed to
forwarding), the counter is incremented, and the next send is scheduled one
interval later unless the maximum is reached. -/
def clientSend {α : Type} (cfg : ClientConfig) (sendAction : α) (c : ClientState)
    (s : Scheduler α) : Bool × ClientState × Scheduler α :=
  if c.sent < cfg.maxPackets then
    if c.sent + 1 < cfg.maxPackets then
      let r := s.schedule cfg.interval sendAction
      (true, { sent := c.sent + 1, sendEvent := some r.2 }, r.1)
    else
      (true, { sent := c.sent + 1, sendEvent := none }, s)
  else
    (false, { c with sendEvent := none }, s)

/-- Modelled from the spec: the stop event of an application instance cancels
its pending send. -/
def clientStop {α : Type} (c : ClientState) (s : Scheduler α) : ClientState × Scheduler α :=
  match c.sendEvent with
  | none => (c, s)
  | some h => ({ c with sendEvent := none }, s.cancel h)

/-- The events of a client on its own. -/
inductive ClientAction where
  | send
  | stop
deriving DecidableEq, Repr

/-- The state of a client on its own: the client and the instants at which
it handed a packet to forwarding. -/
structure ClientOnly where
  app : ClientState
  sentAt : List Time
deriving DecidableEq, Repr

/-- Dispatch of a client event when forwarding is a sink that records the
instant of the hand-off. -/
def clientHandle (cfg : ClientConfig) (a : ClientAction)
    (w : World ClientOnly ClientAction) : World ClientOnly ClientAction :=
  match a with
  | ClientAction.send =>
      let r := clientSend cfg ClientAction.send w.st.app w.sched
      { sched := r.2.2,
        st := { app := r.2.1,
                sentAt := if r.1 then w.st.sentAt ++ [w.sched.now] else w.st.sentAt } }
  | ClientAction.stop =>
      let r := clientStop w.st.app w.sched
      { sched := r.2, st := { w.st with app := r.1 } }

/-- The calls `clientApps.Start(start)` then `clientApps.Stop(stop)` made at
time 0 on an empty scheduler: `Start` schedules the first send at `start`,
`Stop` schedules the stop event. -/
def clientInit (start stop : Time) : World ClientOnly ClientAction :=
  let s0 : Scheduler ClientAction := { now := 0, nextSeq := 0, queue := [] }
  let r1 := s0.schedule start ClientAction.send
  let r2 := r1.1.schedule stop ClientAction.stop
  { sched := r2.1, st := { app := { sent := 0, sendEvent := some r1.2 }, sentAt := [] } }

/-- The instants at which a client on its own sends, for a run halted at
`simStop`; `none` if `fuel` dispatches do not reach the halt. -/
def clientSendTimes (cfg : ClientConfig) (start stop simStop : Time) (fuel : Nat) :
    Option (List Time) :=
  (run_until (clientHandle cfg) simStop fuel (clientInit start stop)).map (fun w => w.st.sentAt)

/-- The echo client of `assignment_topology.cc` (lines 117-119). -/
def Assignment.clientConfig : ClientConfig :=
  { maxPackets := 10, interval := Seconds 1, packetSize := 1024 }

/-- The echo client of `code.cc` (lines 54-56); the interval 0.5 s is 500 ms. -/
def Code.clientConfig : ClientConfig :=
  { maxPackets := 120, interval := MilliSeconds 500, packetSize := 256 }

/-! ## Packets, flows and the forwarding path -/

/-- The 5-tuple identifying a flow. -/
structure FiveTuple where
  sourceAddress : Ipv4Address
  destinationAddress : Ipv4Address
  protocol : Nat
  sourcePort : Nat
  destinationPort : Nat
deriving DecidableEq, Repr

/-- Modelled from the spec: the Packet of the data model (section 3): an
identifier, a 5-tuple, a byte size and a creation time stamp. -/
structure Packet where
  id : Nat
  tuple : FiveTuple
  size : Nat
  created : Time
deriving DecidableEq, Repr

/-- Modelled from the spec: the Flow of the data model (section 3): counts,
byte totals, first-tx and last-rx time stamps and the cumulative delay. -/
structure Flow where
  txPackets : Nat
  rxPackets : Nat
  lostPackets : Nat
  txBytes : Nat
  rxBytes : Nat
  timeFirstTxPacket : Time
  timeLastRxPacket : Time
  delaySum : Time
deriving DecidableEq, Repr

def Flow.empty : Flow :=
  { txPackets := 0, rxPackets := 0, lostPackets := 0, txBytes := 0, rxBytes := 0,
    timeFirstTxPacket := 0, timeLastRxPacket := 0, delaySum := 0 }

/-- The fields of a flow that `PrintFlowStats` reads. -/
def Flow.toFlowStats (f : Flow) : FlowStats :=
  { txPackets := f.txPackets, rxPackets := f.rxPackets, lostPackets := f.lostPackets,
    rxBytes := f.rxBytes, timeFirstTxPacket := f.timeFirstTxPacket,
    timeLastRxPacket := f.timeLastRxPacket, delaySum := f.delaySum }

/-- Apply `f` to the flow keyed by `k`, creating the flow first when it has
not been observed yet. -/
def updateFlow (k : FiveTuple) (f : Flow → Flow) : List (FiveTuple × Flow) → List (FiveTuple × Flow)
  | [] => [(k, f Flow.empty)]
  | (k1, v) :: rest => if k1 = k then (k1, f v) :: rest else (k1, v) :: updateFlow k f rest

def findFlow (k : FiveTuple) : List (FiveTuple × Flow) → Option Flow
  | [] => none
  | (k1, v) :: rest => if k1 = k then some v else findFlow k rest

/-- Modelled from the spec: `on_send` of the Flow Statistics Aggregator
(section 4.6). -/
def on_send (now : Time) (p : Packet) (fs : List (FiveTuple × Flow)) : List (FiveTuple × Flow) :=
  updateFlow p.tuple (fun f =>
    { f with txPackets := f.txPackets + 1, txBytes := f.txBytes + p.size,
             timeFirstTxPacket := if f.txPackets = 0 then now else f.timeFirstTxPacket }) fs

/-- Modelled from the spec: `on_receive` of the Flow Statistics Aggregator. -/
def on_receive (now : Time) (p : Packet) (fs : List (FiveTuple × Flow)) :
    List (FiveTuple × Flow) :=
  updateFlow p.tuple (fun f =>
    { f with rxPackets := f.rxPackets + 1, rxBytes := f.rxBytes + p.size,
             timeLastRxPacket := now, delaySum := f.delaySum + (now - p.created) }) fs

/-- Modelled from the spec: `on_drop` of the Flow Statistics Aggregator. -/
def on_drop (p : Packet) (fs : List (FiveTuple × Flow)) : List (FiveTuple × Flow) :=
  updateFlow p.tuple (fun f => { f with lostPackets := f.lostPackets + 1 }) fs

/-- The summary of one flow in `report()`. -/
structure Summary where
  txPackets : Nat
  rxPackets : Nat
  lostPackets : Nat
  throughput : Option ℚ
  meanDelay : Option ℚ

/-- Modelled from the spec: the derived metrics of `report()` (section 4.6):
throughput is received bytes times 8 over (last-receive-time minus
first-tx-time), in seconds, when rx-packets is positive, else omitted; the mean
delay is the delay sum over rx-packets. -/
def Flow.summary (f : Flow) : Summary :=
  { txPackets := f.txPackets, rxPackets := f.rxPackets, lostPackets := f.lostPackets,
    throughput :=
      if 0 < f.rxPackets then
        some ((f.rxBytes : ℚ) * 8 / (GetSeconds f.timeLastRxPacket - GetSeconds f.timeFirstTxPacket))
      else none,
    meanDelay :=
      if 0 < f.rxPackets then some (GetSeconds f.delaySum / (f.rxPackets : ℚ)) else none }

inductive DropReason where
  | noRoute
  | queueOverflow
  | errorModel
deriving DecidableEq, Repr

/-- The observable events of section 6. -/
inductive Notification where
  | sent (p : Packet) (t : Time)
  | received (p : Packet) (t : Time)
  | dropped (p : Packet) (reason : DropReason) (t : Time)
deriving DecidableEq, Repr

/-- The events of the network simulation. A link direction is named by
`towardB`: true for the channel from endpoint `a` to endpoint `b`. -/
inductive NetAction where
  | clientSend
  | clientStop
  | serverStart
  | serverStop
  | txComplete (link : LinkId) (towardB : Bool)
  | arrive (p : Packet) (link : LinkId) (towardB : Bool)
deriving DecidableEq, Repr

/-- One unidirectional channel of a link: its transmit queue and whether a
packet is being transmitted. -/
structure Channel where
  queue : List Packet
  busy : Bool
deriving DecidableEq, Repr

/-- The run configuration. -/
structure NetConfig where
  topo : Topology
  table : List (List RoutingEntry)
  interfaces : List (Ipv4Address × NodeId)
  client : ClientConfig
  clientNode : NodeId
  clientAddress : Ipv4Address
  clientPort : Nat
  remoteAddress : Ipv4Address
  port : Nat
  clientStart : Time
  clientStop : Time
  serverNode : NodeId
  serverStart : Time
  serverStop : Time
  simStop : Time

/-- The state of the components other than the scheduler and the random
generator. -/
structure NetState where
  client : ClientState
  serverRunning : Bool
  chans : List Channel
  flows : List (FiveTuple × Flow)
  nextPacketId : Nat
  log : List Notification

abbrev NetWorld := World NetState NetAction

/-- The state of a run: the components and the state of the seeded
generator. -/
structure RunState where
  net : NetState
  rng : Nat

abbrev RunWorld := World RunState NetAction

/-- The node that owns an interface address. -/
def ownerOf (cfg : NetConfig) (a : Ipv4Address) : Option NodeId :=
  (cfg.interfaces.find? (fun p => p.1 = a)).map (fun p => p.2)

/-- Index of a channel in `chans`: two per link. -/
def chanIndex (link : LinkId) (towardB : Bool) : Nat :=
  2 * link + (if towardB then 1 else 0)

/-- Transmission time of `size` bytes at `rate` bits per second, in whole
nanoseconds. -/
def txTime (size rate : Nat) : Time := size * 8 * 1000000000 / rate

/-- Record a lost packet and notify. -/
def dropPacket (p : Packet) (reason : DropReason) (w : NetWorld) : NetWorld :=
  { w with st := { w.st with flows := on_drop p w.st.flows,
                             log := w.st.log ++ [Notification.dropped p reason w.sched.now] } }

/-- If the channel is idle and its queue is not empty, take the head of the
queue and transmit it: the channel is busy for the transmission time, and the
packet arrives at the far endpoint after transmission time plus propagation
delay. -/
def startTx (cfg : NetConfig) (link : LinkId) (towardB : Bool) (w : NetWorld) : NetWorld :=
  match cfg.topo.links.get? link, w.st.chans.get? (chanIndex link towardB) with
  | some l, some ch =>
      if ch.busy then w
      else
        match ch.queue with
        | [] => w
        | p :: rest =>
            let t := txTime p.size l.rate
            let s1 := (w.sched.schedule t (NetAction.txComplete link towardB)).1
            let s2 := (s1.schedule (t + l.delay) (NetAction.arrive p link towardB)).1
            let chans := w.st.chans.set (chanIndex link towardB) { queue := rest, busy := true }
            { sched := s2, st := { w.st with chans := chans } }
  | _, _ => w

/-- Enqueue on the outgoing channel of a link; a queue at capacity drops the
packet. -/
def enqueue (cfg : NetConfig) (link : LinkId) (towardB : Bool) (p : Packet) (w : NetWorld) :
    NetWorld :=
  match cfg.topo.links.get? link, w.st.chans.get? (chanIndex link towardB) with
  | some l, some ch =>
      if l.queueCapacity ≤ ch.queue.length then dropPacket p DropReason.queueOverflow w
      else
        let chans := w.st.chans.set (chanIndex link towardB) { ch with queue := ch.queue ++ [p] }
        startTx cfg link towardB { w with st := { w.st with chans := chans } }
  | _, _ => dropPacket p DropReason.noRoute w

/-- Consult the routing table of node `u` for the packet's destination and
enqueue on the chosen link, or drop when there is no route. -/
def route (cfg : NetConfig) (u : NodeId) (p : Packet) (w : NetWorld) : NetWorld :=
  match ownerOf cfg p.tuple.destinationAddress with
  | none => dropPacket p DropReason.noRoute w
  | some d =>
      match lookup cfg.table u d with
      | RoutingEntry.via link _ =>
          match cfg.topo.links.get? link with
          | some l => enqueue cfg link (decide (l.a = u)) p w
          | none => dropPacket p DropReason.noRoute w
      | _ => dropPacket p DropReason.noRoute w

/-- Record a delivered packet and notify. -/
def receivePacket (p : Packet) (w : NetWorld) : NetWorld :=
  { w with st := { w.st with flows := on_receive w.sched.now p w.st.flows,
                             log := w.st.log ++ [Notification.received p w.sched.now] } }

/-- Record a packet handed to forwarding by an application and notify. -/
def sendPacket (p : Packet) (w : NetWorld) : NetWorld :=
  { w with st := { w.st with flows := on_send w.sched.now p w.st.flows,
                             nextPacketId := w.st.nextPacketId + 1,
                             log := w.st.log ++ [Notification.sent p w.sched.now] } }

/-- Delivery at the destination node: the packet is recorded as received; a
running echo server on this node and port answers with a packet of the same
size to the original source. -/
def deliver (cfg : NetConfig) (u : NodeId) (p : Packet) (w : NetWorld) : NetWorld :=
  let w1 := receivePacket p w
  if u = cfg.serverNode ∧ p.tuple.destinationPort = cfg.port ∧ w1.st.serverRunning = true then
    let reply : Packet :=
      { id := w1.st.nextPacketId,
        tuple := { sourceAddress := p.tuple.destinationAddress,
                   destinationAddress := p.tuple.sourceAddress,
                   protocol := p.tuple.protocol,
                   sourcePort := p.tuple.destinationPort,
                   destinationPort := p.tuple.sourcePort },
        size := p.size, created := w1.sched.now }
    let w2 := sendPacket reply w1
    if ownerOf cfg reply.tuple.destinationAddress = some u then receivePacket reply w2
    else route cfg u reply w2
  else w1

/-- Modelled from the spec: the forwarding algorithm (section 4.6): at the
destination deliver, otherwise route. -/
def forward (cfg : NetConfig) (u : NodeId) (p : Packet) (w : NetWorld) : NetWorld :=
  if ownerOf cfg p.tuple.destinationAddress = some u then deliver cfg u p w
  else route cfg u p w

/-- Modelled from the spec: `should_drop` of the Error Model (section 4.3): a
Bernoulli trial with the configured rate, decided by a draw of the seeded
generator. -/
def should_drop (em : RateErrorModel) (draw : Nat) : Bool :=
  decide (draw % em.rateDen < em.rateNum)

/-- Arrival at the far endpoint of a link: the error model of the receiving
endpoint, if any, is consulted with the generator's next draw; a packet that
survives is forwarded. The boolean tells whether the draw was used. -/
def arrive (cfg : NetConfig) (draw : Nat) (p : Packet) (link : LinkId) (towardB : Bool)
    (w : NetWorld) : NetWorld × Bool :=
  match cfg.topo.links.get? link with
  | none => (dropPacket p DropReason.noRoute w, false)
  | some l =>
      let node := if towardB then l.b else l.a
      match (if towardB then l.rxErrorB else l.rxErrorA) with
      | none => (forward cfg node p w, false)
      | some em =>
          if should_drop em draw then (dropPacket p DropReason.errorModel w, true)
          else (forward cfg node p w, true)

/-- The effect of one event on the components, and whether the generator's
draw was used. -/
def netDispatch (cfg : NetConfig) (draw : Nat) (a : NetAction) (w : NetWorld) : NetWorld × Bool :=
  match a with
  | NetAction.arrive p link towardB => arrive cfg draw p link towardB w
  | NetAction.clientSend => (
      let r := clientSend cfg.client NetAction.clientSend w.st.client w.sched
      let w1 : NetWorld := { sched := r.2.2, st := { w.st with client := r.2.1 } }
      if r.1 then
        let p : Packet :=
          { id := w1.st.nextPacketId,
            tuple := { sourceAddress := cfg.clientAddress,
                       destinationAddress := cfg.remoteAddress,
                       protocol := 17, sourcePort := cfg.clientPort,
                       destinationPort := cfg.port },
            size := cfg.client.packetSize, created := w1.sched.now }
        forward cfg cfg.clientNode p (sendPacket p w1)
      else w1, false)
  | NetAction.clientStop =>
      let r := clientStop w.st.client w.sched
      ({ sched := r.2, st := { w.st with client := r.1 } }, false)
  | NetAction.serverStart => ({ w with st := { w.st with serverRunning := true } }, false)
  | NetAction.serverStop => ({ w with st := { w.st with serverRunning := false } }, false)
  | NetAction.txComplete link towardB =>
      (match w.st.chans.get? (chanIndex link towardB) with
       | none => w
       | some ch =>
           let chans := w.st.chans.set (chanIndex link towardB) { ch with busy := false }
           startTx cfg link towardB { w with st := { w.st with chans := chans } }, false)

/-- Dispatch of one event in a run driven by the generator `gen`: the
generator advances when its draw is used. -/
def netHandle (cfg : NetConfig) (gen : Nat → Nat) (a : NetAction) (w : RunWorld) : RunWorld :=
  let draw := gen w.st.rng
  let r := netDispatch cfg draw a { sched := w.sched, st := w.st.net }
  { sched := r.1.sched, st := { net := r.1.st, rng := if r.2 then draw else w.st.rng } }

/-- The world when `Simulator::Run` is called: the script has called
`serverApps.Start`, `serverApps.Stop`, `clientApps.Start` and
`clientApps.Stop`, in this order; the client's `Start` schedules its first
send. -/
def netInit (cfg : NetConfig) (seed : Nat) : RunWorld :=
  let s0 : Scheduler NetAction := { now := 0, nextSeq := 0, queue := [] }
  let s1 := (s0.schedule cfg.serverStart NetAction.serverStart).1
  let s2 := (s1.schedule cfg.serverStop NetAction.serverStop).1
  let r3 := s2.schedule cfg.clientStart NetAction.clientSend
  let s4 := (r3.1.schedule cfg.clientStop NetAction.clientStop).1
  { sched := s4,
    st := { net := { client := { sent := 0, sendEvent := some r3.2 },
                     serverRunning := false,
                     chans := List.replicate (2 * cfg.topo.links.length)
                       { queue := [], busy := false },
                     flows := [], nextPacketId := 0, log := [] },
            rng := seed } }

/-- The run of a configuration with generator `gen` seeded with `seed`:
`run_until(simStop)` from the initial world. -/
def simulate (cfg : NetConfig) (gen : Nat → Nat) (seed : Nat) (fuel : Nat) : Option RunWorld :=
  run_until (netHandle cfg gen) cfg.simStop fuel (netInit cfg seed)

/-- No link of the topology carries an error model. -/
def Topology.noErrorModels (t : Topology) : Prop :=
  ∀ l ∈ t.links, l.rxErrorA = none ∧ l.rxErrorB = none

/-- The drop notifications of a log. -/
def drops (log : List Notification) : List Notification :=
  log.filter (fun n => match n with
    | Notification.dropped _ _ _ => true
    | _ => false)

/-- The instants of the `sent` notifications of flow `k`. -/
def sentTimes (k : FiveTuple) (log : List Notification) : List Time :=
  log.filterMap (fun n => match n with
    | Notification.sent p t => if p.tuple = k then some t else none
    | _ => none)

/-- The instants of the `received` notifications of flow `k`. -/
def receivedTimes (k : FiveTuple) (log : List Notification) : List Time :=
  log.filterMap (fun n => match n with
    | Notification.received p t => if p.tuple = k then some t else none
    | _ => none)

/-- What a finished run is observed through: the flow records and the
notifications. -/
def observe (w : RunWorld) : List (FiveTuple × Flow) × List Notification :=
  (w.st.net.flows, w.st.net.log)

/-- The interface addresses of all devices with their nodes. -/
def interfacesOf (devs : List NetDeviceContainer) : List (Ipv4Address × NodeId) :=
  devs.flatten.filterMap (fun d => d.address.map (fun a => (a, d.node)))

/-- The scenario of `assignment_topology.cc` with the queue capacity of the
client's access link set to 0 (the second end-to-end scenario of spec
section 8). -/
def Assignment.topologyQueueZero : Topology :=
  { Assignment.topology with
    links := Assignment.topology.links.enum.map
      (fun p => if p.1 = 0 then { p.2 with queueCapacity := 0 } else p.2) }

/-- The configuration of `assignment_topology.cc` (lines 109-133); the routing
table is built with hop-count weights, and the client's source address is the
address of its node's interface. -/
def Assignment.netConfig : NetConfig :=
  { topo := Assignment.topology,
    table := build Assignment.topology hopWeight,
    interfaces := interfacesOf Assignment.devicesFinal,
    client := Assignment.clientConfig,
    clientNode := Assignment.clientNode,
    clientAddress :=
      (((devicesOnNode Assignment.devicesFinal Assignment.clientNode).head?).bind
        (fun d => d.address)).getD ⟨0, 0, 0, 0⟩,
    clientPort := 49153,
    remoteAddress := Assignment.clientRemote,
    port := 9,
    clientStart := Seconds 2,
    clientStop := Seconds 30,
    serverNode := Assignment.serverNode,
    serverStart := Seconds 1,
    serverStop := Seconds 30,
    simStop := Seconds 30 }

/-- The 5-tuple of the client-to-server flow of `assignment_topology.cc`. -/
def Assignment.requestFlow : FiveTuple :=
  { sourceAddress := ⟨10, 1, 1, 1⟩, destinationAddress := ⟨10, 1, 5, 1⟩, protocol := 17,
    sourcePort := 49153, destinationPort := 9 }

/-- The record a run of `assignment_topology.cc` ends with for the
client-to-server flow. -/
def Assignment.requestFlowRecord : Flow :=
  { txPackets := 10, rxPackets := 10, lostPackets := 0, txBytes := 10240, rxBytes := 10240,
    timeFirstTxPacket := 2000000000, timeLastRxPacket := 11022114666, delaySum := 221146660 }

/-- The 5-tuple of the server-to-client flow of `assignment_topology.cc`. -/
def Assignment.replyFlow : FiveTuple :=
  { sourceAddress := ⟨10, 1, 5, 1⟩, destinationAddress := ⟨10, 1, 1, 1⟩, protocol := 17,
    sourcePort := 9, destinationPort := 49153 }

end NS3Sim

namespace NS3Sim

/-! ## The scheduler: more fuel does not change a finished run -/

theorem run_until_succ {σ α : Type} (handle : α → World σ α → World σ α) (stop : Time) :
    ∀ (fuel : Nat) (w w' : World σ α),
      run_until handle stop fuel w = some w' → run_until handle stop (fuel + 1) w = some w' := by
  intro fuel
  induction fuel with
  | zero =>
      intro w w' h
      cases hq : w.sched.queue with
      | nil => simpa [run_until, hq] using h
      | cons e rest =>
          simp only [run_until, hq] at h ⊢
          by_cases hs : stop < e.time
          · simpa [hs] using h
          · simp [hs] at h
  | succ n ih =>
      intro w w' h
      cases hq : w.sched.queue with
      | nil =>
          rw [run_until] at h ⊢
          simpa [hq] using h
      | cons e rest =>
          rw [run_until] at h ⊢
          simp only [hq] at h ⊢
          by_cases hs : stop < e.time
          · simpa [hs] using h
          · simp only [hs, if_false] at h ⊢
            by_cases hc : e.cancelled = true
            · simp only [hc, if_true] at h ⊢
              exact ih _ _ h
            · simp only [hc, if_false] at h ⊢
              exact ih _ _ h

theorem run_until_mono {σ α : Type} (handle : α → World σ α → World σ α) (stop : Time)
    (fuel fuel' : Nat) (hle : fuel ≤ fuel') (w w' : World σ α)
    (h : run_until handle stop fuel w = some w') : run_until handle stop fuel' w = some w' := by
  induction hle with
  | refl => exact h
  | step _ ih => exact run_until_succ handle stop _ w w' ih

/-! ## The echo client on its own -/

/-- From a world whose queue holds the `j`-th send followed by the stop event,
with `k + 1` sends still due before the stop time, `k + 3` dispatches finish
the run and the sends happen at `s + i * d` for `i = j, ..., j + k`. -/
theorem client_run_from (M d sz s T simStop : Nat) (hstop : T ≤ simStop) :
    ∀ (k j ns q now : Nat) (acc : List Time),
      2 ≤ ns → j + k + 1 ≤ M → s + (j + k) * d < T →
      (j + k + 1 = M ∨ T ≤ s + (j + k + 1) * d) →
      (run_until (clientHandle ⟨M, d, sz⟩) simStop (k + 3)
        { sched := { now := now, nextSeq := ns,
                     queue := [ ⟨s + j * d, q, false, ClientAction.send⟩,
                                ⟨T, 1, false, ClientAction.stop⟩ ] },
          st := { app := { sent := j, sendEvent := some q }, sentAt := acc } }).map
        (fun w => w.st.sentAt)
      = some (acc ++ (List.range' j (k + 1)).map (fun i => s + i * d)) := by
  intro k
  induction k with
  | zero =>
      intro j ns q now acc hns hM hT hend
      simp only [Nat.add_zero] at hM hT hend
      have h1 : ¬ simStop < s + j * d := by omega
      have h2 : ¬ simStop < T := by omega
      have hj : j < M := by omega
      by_cases hlast : j + 1 < M
      · have hT' : T ≤ s + j * d + d := by
          rcases hend with h | h
          · omega
          · rw [Nat.add_mul, Nat.one_mul] at h; omega
        have hb1 : ¬ (s + j * d + d < T) := by omega
        have hb2 : ¬ (ns < 1) := by omega
        simp [run_until, clientHandle, clientSend, clientStop, Scheduler.schedule,
          Scheduler.cancel, insertEvent, Event.before, h1, h2, hj, hlast, hb1, hb2]
        split <;> simp
      · simp [run_until, clientHandle, clientSend, clientStop, Scheduler.schedule,
          Scheduler.cancel, insertEvent, Event.before, h1, h2, hj, hlast]
  | succ k ih =>
      intro j ns q now acc hns hM hT hend
      have hmul : (j + 1) * d ≤ (j + (k + 1)) * d := Nat.mul_le_mul_right d (by omega)
      rw [Nat.add_mul, Nat.one_mul] at hmul
      have h1 : ¬ simStop < s + j * d := by omega
      have hj : j < M := by omega
      have hlast : j + 1 < M := by omega
      have hb1 : s + j * d + d < T := by omega
      have ih' := ih (j + 1) (ns + 1) ns (s + j * d) (acc ++ [s + j * d]) (by omega) (by omega)
        (by rw [show j + 1 + k = j + (k + 1) by omega]; exact hT)
        (by rw [show j + 1 + k + 1 = j + (k + 1) + 1 by omega]; exact hend)
      rw [Nat.add_mul, Nat.one_mul, ← Nat.add_assoc] at ih'
      rw [show k + 1 + 3 = (k + 3) + 1 by rfl, run_until]
      simp only [clientHandle, clientSend, Scheduler.schedule, insertEvent, Event.before,
        h1, hj, hlast, hb1, if_true, if_false, decide_True, Bool.true_or]
      rw [if_neg (by simp), ih']
      simp [List.range'_succ]

/-- The number of sends before the stop time: the least `n` with
`s + n * d ≥ T`, that is the ceiling of `(T - s) / d`. -/
theorem lt_ceil_iff (s T d k : Nat) (hd : 0 < d) (hT : s < T) :
    k < (T - s + d - 1) / d ↔ s + k * d < T := by
  rw [Nat.lt_iff_add_one_le, Nat.le_div_iff_mul_le hd, Nat.add_mul, Nat.one_mul]
  omega

theorem clientSendTimes_eq (cfg : ClientConfig) (s T simStop fuel : Nat)
    (hd : 0 < cfg.interval) (hT : s < T) (hstop : T ≤ simStop)
    (hfuel : min cfg.maxPackets ((T - s + cfg.interval - 1) / cfg.interval) + 2 ≤ fuel) :
    clientSendTimes cfg s T simStop fuel =
      some ((List.range (min cfg.maxPackets ((T - s + cfg.interval - 1) / cfg.interval))).map
        (fun k => s + k * cfg.interval)) := by
  obtain ⟨M, d, sz⟩ := cfg
  simp only at hd hfuel ⊢
  have hlt := fun k => lt_ceil_iff s T d k hd hT
  have hinit : clientInit s T =
      { sched := { now := 0, nextSeq := 2,
                   queue := [ ⟨s + 0 * d, 0, false, ClientAction.send⟩,
                              ⟨T, 1, false, ClientAction.stop⟩ ] },
        st := { app := { sent := 0, sendEvent := some 0 }, sentAt := [] } } := by
    have h1 : ¬ T < s := by omega
    have h2 : ¬ T = s := by omega
    simp [clientInit, Scheduler.schedule, insertEvent, Event.before, h1, h2]
  have key : ∀ l, (run_until (clientHandle ⟨M, d, sz⟩) simStop
        (min M ((T - s + d - 1) / d) + 2) (clientInit s T)).map (fun w => w.st.sentAt) = some l →
      clientSendTimes ⟨M, d, sz⟩ s T simStop fuel = some l := by
    intro l hl
    rw [Option.map_eq_some'] at hl
    obtain ⟨w, hw, hwl⟩ := hl
    unfold clientSendTimes
    rw [run_until_mono _ _ _ _ hfuel _ _ hw]
    simp [hwl]
  apply key
  cases hn : min M ((T - s + d - 1) / d) with
  | zero =>
      have hpos : 0 < (T - s + d - 1) / d := (hlt 0).2 (by omega)
      have hM : M = 0 := by omega
      subst hM
      have h1 : ¬ simStop < s := by omega
      have h2 : ¬ simStop < T := by omega
      rw [hinit]
      simp [run_until, clientHandle, clientSend, clientStop, h1, h2]
  | succ k =>
      have hk : k < (T - s + d - 1) / d := by omega
      have hend : 0 + k + 1 = M ∨ T ≤ s + (0 + k + 1) * d := by
        by_cases hM : k + 1 = M
        · left; omega
        · right
          have : ¬ (k + 1 < (T - s + d - 1) / d) := by omega
          rw [hlt] at this
          rw [Nat.zero_add]
          omega
      have h := client_run_from M d sz s T simStop hstop k 0 2 0 0 [] (by omega) (by omega)
        (by rw [Nat.zero_add]; exact (hlt k).1 hk) hend
      rw [hinit, h]
      simp [List.range_eq_range']

/-! ## Runs without an error model do not depend on the generator -/

theorem arrive_noErrorModels (cfg : NetConfig) (h : cfg.topo.noErrorModels) (draw : Nat)
    (p : Packet) (link : LinkId) (towardB : Bool) (w : NetWorld) :
    arrive cfg draw p link towardB w = arrive cfg 0 p link towardB w := by
  unfold arrive
  cases hl : cfg.topo.links.get? link with
  | none => rfl
  | some l =>
      have hm := h l (List.get?_mem hl)
      cases towardB <;> simp [hm.1, hm.2]

theorem netDispatch_noErrorModels (cfg : NetConfig) (h : cfg.topo.noErrorModels) (draw : Nat)
    (a : NetAction) (w : NetWorld) :
    netDispatch cfg draw a w = netDispatch cfg 0 a w := by
  cases a <;> simp [netDispatch, arrive_noErrorModels cfg h draw]

theorem run_until_noErrorModels (cfg : NetConfig) (h : cfg.topo.noErrorModels)
    (gen gen' : Nat → Nat) (stop : Time) :
    ∀ (fuel : Nat) (sched : Scheduler NetAction) (net : NetState) (r r' : Nat),
      (run_until (netHandle cfg gen) stop fuel ⟨sched, ⟨net, r⟩⟩).map observe =
      (run_until (netHandle cfg gen') stop fuel ⟨sched, ⟨net, r'⟩⟩).map observe := by
  intro fuel
  induction fuel with
  | zero =>
      intro sched net r r'
      cases hq : sched.queue with
      | nil => simp [run_until, hq, observe]
      | cons e rest =>
          by_cases hs : stop < e.time <;> simp [run_until, hq, hs, observe]
  | succ n ih =>
      intro sched net r r'
      cases hq : sched.queue with
      | nil => simp [run_until, hq, observe]
      | cons e rest =>
          by_cases hs : stop < e.time
          · simp [run_until, hq, hs, observe]
          · by_cases hc : e.cancelled = true
            · simp only [run_until, hq, hs, hc, if_true, if_false]
              exact ih _ _ _ _
            · simp only [run_until, hq, hs, hc, if_false, netHandle]
              rw [netDispatch_noErrorModels cfg h (gen r), netDispatch_noErrorModels cfg h (gen' r')]
              exact ih _ _ _ _

theorem simulate_noErrorModels (cfg : NetConfig) (h : cfg.topo.noErrorModels)
    (gen : Nat → Nat) (seed fuel : Nat) :
    (simulate cfg gen seed fuel).map observe = (simulate cfg id 0 fuel).map observe := by
  unfold simulate netInit
  exact run_until_noErrorModels cfg h gen id cfg.simStop fuel _ _ _ _

/-! ## The scripts' topology, device array and addresses -/

/-- Claim C6: each script builds 11 nodes and 11 links; the two scripts yield
the same list of endpoint pairs, no pair is a self-loop, its endpoints are
created nodes, and no two links join the same unordered pair. -/
theorem scripts_build_same_simple_graph :
    allNodes.length = 11 ∧ allNodes.Nodup ∧
    ∃ ps, linkPairs Code.devicesInstalled = some ps ∧
      linkPairs Assignment.devicesInstalled = some ps ∧
      ps.length = 11 ∧
      (∀ p ∈ ps, p.1 ≠ p.2 ∧ p.1 ∈ allNodes ∧ p.2 ∈ allNodes) ∧
      (ps.map unordered).Nodup ∧
      (∀ q, q ∈ (ps.map unordered) ↔
        q ∈ [(0, 7), (1, 7), (2, 9), (3, 9), (4, 8), (5, 8), (6, 10), (7, 8), (7, 9), (9, 10),
             (8, 10)]) := by
  refine ⟨by decide, by decide, _, rfl, by decide, by decide, by decide, by decide, ?_⟩
  intro q
  exact Iff.rfl

/-- Witness for C6 at the link of host 4: it is one of the links, it is not a
self-loop and both its ends are created nodes. -/
theorem scripts_build_same_simple_graph_witness :
    linkPairs Code.devicesInstalled =
      some [(0, 7), (1, 7), (2, 9), (3, 9), (4, 8), (5, 8), (6, 10), (7, 8), (7, 9), (9, 10),
            (8, 10)] ∧
    ((4 : NodeId) ≠ 8 ∧ 4 ∈ allNodes ∧ 8 ∈ allNodes) := by
  obtain ⟨_, _, ps, h1, _, _, h4, _, _⟩ := scripts_build_same_simple_graph
  have hps : ps = [(0, 7), (1, 7), (2, 9), (3, 9), (4, 8), (5, 8), (6, 10), (7, 8), (7, 9),
      (9, 10), (8, 10)] := by
    have h1' : linkPairs Code.devicesInstalled =
        some [(0, 7), (1, 7), (2, 9), (3, 9), (4, 8), (5, 8), (6, 10), (7, 8), (7, 9), (9, 10),
              (8, 10)] := by decide
    rw [h1] at h1'
    exact Option.some.inj h1'
  subst hps
  exact ⟨h1, h4 (4, 8) (by decide)⟩

/-- Claim C10: in `code.cc` every slot 0..10 of `devices` is written by exactly
one `Install` statement and no statement writes outside the array; after the
statements every slot holds a two-device container, so the error-model loop
finds `Get(1)` in every slot and completes; the subnets of the address loop
are pairwise distinct with third octet between 1 and 11. The array the two
loops leave behind has 11 slots; slot `i` holds the devices installed there,
on the same nodes, the second with the error model, and the address loop has
given them the host numbers 1 and 2 of the subnet `10.1.(i+1).0`, so devices
of different slots lie in different networks. -/
theorem code_devices_slots_and_subnets :
    (∀ i, i < 11 → (Code.installStmts.filter (fun st => st.slot = i)).length = 1) ∧
    (∀ st ∈ Code.installStmts, st.slot < 11) ∧
    Code.devicesInstalled.length = 11 ∧
    (∀ i, i < 11 → (Code.devicesInstalled.getD i []).length = 2 ∧
      ((Code.devicesInstalled.getD i []).Get 1).isSome = true) ∧
    (Code.errorModelLoop Code.devicesInstalled).isSome = true ∧
    Code.devicesFinal.isSome = true ∧
    (∀ i, i < 11 → ∀ j, j < 11 → i ≠ j → Code.subnet i ≠ Code.subnet j) ∧
    (∀ i, i < 11 → 1 ≤ (Code.subnet i).o3 ∧ (Code.subnet i).o3 ≤ 11 ∧
      (Code.subnet i).o1 = 10 ∧ (Code.subnet i).o2 = 1 ∧ (Code.subnet i).o4 = 0) ∧
    (∃ ds, Code.devicesFinal = some ds ∧ ds.length = 11 ∧
      (∀ i, i < 11 →
        (ds.getD i []).map (fun d => d.address) =
          [some { Code.subnet i with o4 := 1 }, some { Code.subnet i with o4 := 2 }] ∧
        (∀ d ∈ ds.getD i [], d.address.map networkOf = some (Code.subnet i)) ∧
        (ds.getD i []).map (fun d => d.node) =
          (Code.devicesInstalled.getD i []).map (fun d => d.node) ∧
        ((ds.getD i []).Get 1).map (fun d => d.receiveErrorModel) =
          some (some Code.errorModel)) ∧
      (∀ i, i < 11 → ∀ j, j < 11 → i ≠ j →
        ∀ d ∈ ds.getD i [], ∀ e ∈ ds.getD j [],
          d.address.map networkOf ≠ e.address.map networkOf)) := by
  refine ⟨by decide, by decide, by decide, by decide, by decide, by decide, by decide, by decide,
    _, rfl, by decide, by decide, by decide!⟩

/-- Witness for C10 at slot 3, the slot written out of order: it is written
once, holds a device 1, its subnet differs from that of slot 4, and the address
loop gives its two devices 10.1.4.1 and 10.1.4.2. -/
theorem code_devices_slots_and_subnets_witness :
    (3 < 11) ∧ (Code.installStmts.filter (fun st => st.slot = 3)).length = 1 ∧
    ((Code.devicesInstalled.getD 3 []).Get 1).isSome = true ∧
    Code.subnet 3 ≠ Code.subnet 4 ∧
    ∃ ds, Code.devicesFinal = some ds ∧
      (ds.getD 3 []).map (fun d => d.address) = [some ⟨10, 1, 4, 1⟩, some ⟨10, 1, 4, 2⟩] := by
  obtain ⟨ds, hds, _, hslot, _⟩ := code_devices_slots_and_subnets.2.2.2.2.2.2.2.2
  exact ⟨by decide, code_devices_slots_and_subnets.1 3 (by decide),
   (code_devices_slots_and_subnets.2.2.2.1 3 (by decide)).2,
   code_devices_slots_and_subnets.2.2.2.2.2.2.1 3 (by decide) 4 (by decide) (by decide),
   ds, hds, (hslot 3 (by decide)).1⟩

/-- Claim C4 as stated fails: after the error-model loop of `code.cc` the
device of host 0 on link 0, which receives in the direction router 0 to
host 0, has no error model. -/
theorem code_error_model_missing_on_Get0 :
    ∃ ds, Code.errorModelLoop Code.devicesInstalled = some ds ∧
      ((ds.getD 0 []).Get 0).map (fun d => (d.node, d.receiveErrorModel)) =
        some (hosts.Get 0, none) := by
  refine ⟨_, rfl, by decide⟩

/-- Claim C4, amended: after the error-model loop of `code.cc`, on each of the
11 links the device `Get(1)` (the receiver in the direction from the first
node of the `Install` call to the second) has the shared `RateErrorModel`
installed, and the device `Get(0)` (the receiver in the opposite direction)
has none. -/
theorem code_error_model_on_Get1_only :
    ∃ ds, Code.errorModelLoop Code.devicesInstalled = some ds ∧ ds.length = 11 ∧
      ∀ i, i < 11 →
        ((ds.getD i []).Get 1).map (fun d => d.receiveErrorModel) = some (some Code.errorModel) ∧
        ((ds.getD i []).Get 0).map (fun d => d.receiveErrorModel) = some none ∧
        (ds.getD i []).map (fun d => d.node) =
          (Code.devicesInstalled.getD i []).map (fun d => d.node) := by
  refine ⟨_, rfl, by decide, by decide⟩

/-- Witness for the amended C4 at link 7, router 0 to router 1. -/
theorem code_error_model_on_Get1_only_witness :
    ∃ ds, Code.errorModelLoop Code.devicesInstalled = some ds ∧
      ((ds.getD 7 []).Get 1).map (fun d => d.receiveErrorModel) = some (some Code.errorModel) ∧
      ((ds.getD 7 []).Get 0).map (fun d => d.receiveErrorModel) = some none := by
  obtain ⟨ds, h, _, hall⟩ := code_error_model_on_Get1_only
  exact ⟨ds, h, (hall 7 (by decide)).1, (hall 7 (by decide)).2.1⟩

/-- Claim C9: in both scripts the client's remote address 10.1.5.1 is the
address of the one device of `hosts.Get(4)`, the server's node, and of no
other device. In `code.cc` the link host 4 - router 1 sits in `devices[4]`
(written by the fourth statement, before `devices[3]`), the address loop gives
it the subnet 10.1.5.0, and its first device, on the host, gets host number
1. -/
theorem client_remote_is_server_address :
    (∃ ds, Code.devicesFinal = some ds ∧
      endpoints (ds.getD 4 []) = some (hosts.Get 4, routers.Get 1) ∧
      (ds.getD 4 []).map (fun d => (d.node, d.address)) =
        [(Code.serverNode, some Code.clientRemote), (routers.Get 1, some ⟨10, 1, 5, 2⟩)] ∧
      (devicesWithAddress ds Code.clientRemote).map (fun d => d.node) = [Code.serverNode] ∧
      (devicesOnNode ds Code.serverNode).map (fun d => d.address) = [some Code.clientRemote]) ∧
    Code.subnet 4 = ⟨10, 1, 5, 0⟩ ∧
    Code.installStmts.map (fun st => st.slot) = [0, 1, 2, 4, 5, 6, 3, 7, 8, 9, 10] ∧
    Code.serverNode = hosts.Get 4 ∧
    (endpoints (Assignment.devicesFinal.getD 4 []) = some (hosts.Get 4, routers.Get 1) ∧
      (Assignment.devicesFinal.getD 4 []).map (fun d => (d.node, d.address)) =
        [(Assignment.serverNode, some Assignment.clientRemote),
         (routers.Get 1, some ⟨10, 1, 5, 2⟩)] ∧
      (devicesWithAddress Assignment.devicesFinal Assignment.clientRemote).map (fun d => d.node) =
        [Assignment.serverNode] ∧
      (devicesOnNode Assignment.devicesFinal Assignment.serverNode).map (fun d => d.address) =
        [some Assignment.clientRemote]) ∧
    Assignment.serverNode = hosts.Get 4 := by
  refine ⟨⟨_, rfl, by decide, by decide, by decide, by decide⟩, by decide, by decide, by decide,
    by decide, by decide⟩

/-! ## PrintFlowStats -/

theorem GetSeconds_sub_eq_zero (a b : Time) : GetSeconds a - GetSeconds b = 0 ↔ a = b := by
  unfold GetSeconds
  rw [sub_eq_zero, div_left_inj' (by norm_num : (1000000000 : ℚ) ≠ 0)]
  exact Nat.cast_inj

theorem DoubleVal.div_finite (a b : ℚ) (hb : b ≠ 0) :
    (DoubleVal.finite a).div (DoubleVal.finite b) = DoubleVal.finite (a / b) := by
  simp [DoubleVal.div, hb]

theorem DoubleVal.div_zero_pos (a : ℚ) (ha : 0 < a) :
    (DoubleVal.finite a).div (DoubleVal.finite 0) = DoubleVal.posInf := by
  simp [DoubleVal.div, ha, ne_of_gt ha]

theorem DoubleVal.div_zero_zero :
    (DoubleVal.finite 0).div (DoubleVal.finite 0) = DoubleVal.nan := by
  simp [DoubleVal.div]

theorem DoubleVal.posInf_div (b : ℚ) (hb : 0 ≤ b) :
    DoubleVal.posInf.div (DoubleVal.finite b) = DoubleVal.posInf := by
  simp [DoubleVal.div, not_lt.2 hb]

theorem DoubleVal.nan_div (x : DoubleVal) : DoubleVal.nan.div x = DoubleVal.nan := by
  cases x <;> rfl

/-- The value of lines 37-39, case by case. -/
theorem throughputMbps_eq (s : FlowStats) :
    throughputMbps s =
      if s.timeLastRxPacket = s.timeFirstTxPacket then
        (if s.rxBytes = 0 then DoubleVal.nan else DoubleVal.posInf)
      else
        DoubleVal.finite ((s.rxBytes : ℚ) * 8 /
          (GetSeconds s.timeLastRxPacket - GetSeconds s.timeFirstTxPacket) / 1048576) := by
  unfold throughputMbps
  by_cases ht : s.timeLastRxPacket = s.timeFirstTxPacket
  · have h0 : GetSeconds s.timeLastRxPacket - GetSeconds s.timeFirstTxPacket = 0 :=
      (GetSeconds_sub_eq_zero _ _).2 ht
    rw [h0, if_pos ht]
    by_cases hb : s.rxBytes = 0
    · rw [if_pos hb, hb, Nat.cast_zero, zero_mul, DoubleVal.div_zero_zero, DoubleVal.nan_div,
        DoubleVal.nan_div]
    · have hpos : (0 : ℚ) < (s.rxBytes : ℚ) * 8 := by
        have : (0 : ℚ) < (s.rxBytes : ℚ) := by exact_mod_cast Nat.pos_of_ne_zero hb
        linarith
      rw [if_neg hb, DoubleVal.div_zero_pos _ hpos, DoubleVal.posInf_div _ (by norm_num),
        DoubleVal.posInf_div _ (by norm_num)]
  · have h0 : GetSeconds s.timeLastRxPacket - GetSeconds s.timeFirstTxPacket ≠ 0 :=
      fun h => ht ((GetSeconds_sub_eq_zero _ _).1 h)
    rw [if_neg ht, DoubleVal.div_finite _ _ h0, DoubleVal.div_finite _ _ (by norm_num),
      DoubleVal.div_finite _ _ (by norm_num), div_div]
    norm_num

/-- Under the guard `rxPackets > 0` the quotient of line 42 has a non-zero
divisor and is a finite number. -/
theorem delaySeconds_eq (s : FlowStats) (h : 0 < s.rxPackets) :
    delaySeconds s = DoubleVal.finite (GetSeconds s.delaySum / (s.rxPackets : ℚ)) := by
  have hne : (s.rxPackets : ℚ) ≠ 0 := by
    have : s.rxPackets ≠ 0 := by omega
    exact_mod_cast this
  rw [delaySeconds, DoubleVal.div_finite _ _ hne]

theorem throughputValues_append (xs ys : List LogLine) :
    throughputValues (xs ++ ys) = throughputValues xs ++ throughputValues ys := by
  simp [throughputValues, List.filterMap_append]

theorem throughputValues_printFlow (id : Nat) (src dst : Ipv4Address) (s : FlowStats) :
    throughputValues (printFlow id src dst s) =
      if 0 < s.rxPackets then [throughputMbps s] else [] := by
  by_cases h : 0 < s.rxPackets <;> simp [printFlow, throughputValues, h]

theorem throughputValues_flatMap (FindFlow : Nat → Ipv4Address × Ipv4Address)
    (stats : List (Nat × FlowStats)) :
    throughputValues (stats.flatMap
        (fun f => printFlow f.1 (FindFlow f.1).1 (FindFlow f.1).2 f.2)) =
      stats.filterMap (fun f => if 0 < f.2.rxPackets then some (throughputMbps f.2) else none) := by
  induction stats with
  | nil => simp [throughputValues]
  | cons f rest ih =>
      rw [List.flatMap_cons, throughputValues_append, ih, throughputValues_printFlow]
      by_cases h : 0 < f.2.rxPackets <;> simp [h]

theorem throughputValues_banner (l : List LogLine) :
    throughputValues (LogLine.banner :: l) = throughputValues l := by
  simp [throughputValues]

theorem throughputValues_PrintFlowStats (FindFlow : Nat → Ipv4Address × Ipv4Address)
    (stats : List (Nat × FlowStats)) :
    throughputValues (PrintFlowStats FindFlow stats) =
      stats.filterMap (fun f =>
        if 0 < f.2.rxPackets then
          some (if f.2.timeLastRxPacket = f.2.timeFirstTxPacket then
                  (if f.2.rxBytes = 0 then DoubleVal.nan else DoubleVal.posInf)
                else
                  DoubleVal.finite ((f.2.rxBytes : ℚ) * 8 /
                    (GetSeconds f.2.timeLastRxPacket - GetSeconds f.2.timeFirstTxPacket) /
                    1048576))
        else none) := by
  rw [PrintFlowStats, throughputValues_banner, throughputValues_flatMap]
  simp only [throughputMbps_eq]

/-- The whole report: after the banner, for each flow in order its header and
its tx, rx and lost lines, followed, when `rxPackets > 0`, by the throughput
line and the delay line, whose value is the finite number
`delaySum / rxPackets`. -/
theorem PrintFlowStats_lines (FindFlow : Nat → Ipv4Address × Ipv4Address)
    (stats : List (Nat × FlowStats)) :
    PrintFlowStats FindFlow stats =
      LogLine.banner :: stats.flatMap (fun f =>
        [ LogLine.flow f.1 (FindFlow f.1).1 (FindFlow f.1).2,
          LogLine.txPackets f.2.txPackets,
          LogLine.rxPackets f.2.rxPackets,
          LogLine.lostPackets f.2.lostPackets ] ++
        (if 0 < f.2.rxPackets then
          [ LogLine.throughput (throughputMbps f.2),
            LogLine.endToEndDelay
              (DoubleVal.finite (GetSeconds f.2.delaySum / (f.2.rxPackets : ℚ))) ]
        else [])) := by
  unfold PrintFlowStats
  congr 1
  induction stats with
  | nil => rfl
  | cons f rest ih =>
      rw [List.flatMap_cons, List.flatMap_cons, ih]
      congr 1
      by_cases h : 0 < f.2.rxPackets
      · simp [printFlow, h, delaySeconds_eq f.2 h]
      · simp [printFlow, h]

/-- Claim C2: the report of `PrintFlowStats` is the banner followed, for each
flow in order, by the flow's header and its tx, rx and lost lines and, only
when `rxPackets > 0`, by a throughput line and a delay line; the delay value is
the finite number `delaySum / rxPackets` (seconds), so every reported delay
comes from a flow with a non-zero divisor and multiplied by that flow's
`rxPackets` gives back its `delaySum`. The header and count lines of the report
are those of all flows, whatever their `rxPackets`; the report of a single flow
with `rxPackets = 0` is the banner, the header and the three counts, with no
throughput and no delay line. -/
theorem PrintFlowStats_delay_guarded (FindFlow : Nat → Ipv4Address × Ipv4Address)
    (stats : List (Nat × FlowStats)) :
    PrintFlowStats FindFlow stats =
      LogLine.banner :: stats.flatMap (fun f =>
        [ LogLine.flow f.1 (FindFlow f.1).1 (FindFlow f.1).2,
          LogLine.txPackets f.2.txPackets,
          LogLine.rxPackets f.2.rxPackets,
          LogLine.lostPackets f.2.lostPackets ] ++
        (if 0 < f.2.rxPackets then
          [ LogLine.throughput (throughputMbps f.2),
            LogLine.endToEndDelay
              (DoubleVal.finite (GetSeconds f.2.delaySum / (f.2.rxPackets : ℚ))) ]
        else [])) ∧
    delayValues (PrintFlowStats FindFlow stats) =
      stats.filterMap (fun f =>
        if 0 < f.2.rxPackets then
          some (DoubleVal.finite (GetSeconds f.2.delaySum / (f.2.rxPackets : ℚ)))
        else none) ∧
    (∀ v ∈ delayValues (PrintFlowStats FindFlow stats),
      ∃ f ∈ stats, f.2.rxPackets ≠ 0 ∧
        ∃ q : ℚ, v = DoubleVal.finite q ∧ q * (f.2.rxPackets : ℚ) = GetSeconds f.2.delaySum) ∧
    countLines (PrintFlowStats FindFlow stats) =
      stats.flatMap (fun f =>
        [ LogLine.flow f.1 (FindFlow f.1).1 (FindFlow f.1).2,
          LogLine.txPackets f.2.txPackets,
          LogLine.rxPackets f.2.rxPackets,
          LogLine.lostPackets f.2.lostPackets ]) ∧
    (∀ (id : Nat) (s : FlowStats), s.rxPackets = 0 →
      PrintFlowStats FindFlow [(id, s)] =
        [ LogLine.banner, LogLine.flow id (FindFlow id).1 (FindFlow id).2,
          LogLine.txPackets s.txPackets, LogLine.rxPackets 0,
          LogLine.lostPackets s.lostPackets ]) := by
  have hlines := PrintFlowStats_lines FindFlow stats
  have h1 : delayValues (PrintFlowStats FindFlow stats) =
      stats.filterMap (fun f =>
        if 0 < f.2.rxPackets then
          some (DoubleVal.finite (GetSeconds f.2.delaySum / (f.2.rxPackets : ℚ)))
        else none) := by
    rw [hlines]
    clear hlines
    induction stats with
    | nil => simp [delayValues]
    | cons f rest ih =>
        simp only [delayValues, List.flatMap_cons, List.filterMap_cons,
          List.filterMap_append] at ih ⊢
        by_cases h : 0 < f.2.rxPackets
        · simp only [h, if_true, List.filterMap_cons, List.filterMap_nil, List.nil_append,
            List.singleton_append, List.cons.injEq, true_and]
          exact ih
        · simp only [h, if_false, List.filterMap_nil, List.nil_append]
          exact ih
  have h3 : countLines (PrintFlowStats FindFlow stats) =
      stats.flatMap (fun f =>
        [ LogLine.flow f.1 (FindFlow f.1).1 (FindFlow f.1).2,
          LogLine.txPackets f.2.txPackets,
          LogLine.rxPackets f.2.rxPackets,
          LogLine.lostPackets f.2.lostPackets ]) := by
    rw [hlines]
    clear hlines h1
    induction stats with
    | nil => simp [countLines]
    | cons f rest ih =>
        simp only [countLines, List.flatMap_cons, List.filter_cons, List.filter_append] at ih ⊢
        by_cases h : 0 < f.2.rxPackets
        · simp only [h, if_true, List.filter_cons, List.filter_nil, List.append_nil,
            List.cons_append, List.nil_append, Bool.false_eq_true, if_false,
            List.cons.injEq, true_and]
          exact ih
        · simp only [h, if_true, if_false, List.filter_nil, List.append_nil,
            List.cons_append, List.nil_append, Bool.false_eq_true, List.cons.injEq, true_and]
          exact ih
  refine ⟨hlines, h1, ?_, h3, ?_⟩
  · intro v hv
    rw [h1, List.mem_filterMap] at hv
    obtain ⟨f, hf, hv⟩ := hv
    by_cases h : 0 < f.2.rxPackets
    · simp only [h, if_true, Option.some.injEq] at hv
      refine ⟨f, hf, by omega, _, hv.symm, ?_⟩
      have hne : (f.2.rxPackets : ℚ) ≠ 0 := by
        have : f.2.rxPackets ≠ 0 := by omega
        exact_mod_cast this
      field_simp
    · simp [h] at hv
  · intro id s hs
    simp [PrintFlowStats, printFlow, hs]

/-- Witness for C2: a report over a flow without received packets and a flow
with one. -/
theorem PrintFlowStats_delay_guarded_witness :
    silentFlow.rxPackets = 0 ∧
    delayValues (PrintFlowStats (fun _ => (⟨10, 1, 1, 1⟩, ⟨10, 1, 5, 1⟩))
      [(1, silentFlow), (2, sampleFlow)]) = [DoubleVal.finite 1] ∧
    countLines (PrintFlowStats (fun _ => (⟨10, 1, 1, 1⟩, ⟨10, 1, 5, 1⟩))
      [(1, silentFlow), (2, sampleFlow)]) =
      [ LogLine.flow 1 ⟨10, 1, 1, 1⟩ ⟨10, 1, 5, 1⟩, LogLine.txPackets 3, LogLine.rxPackets 0,
        LogLine.lostPackets 3,
        LogLine.flow 2 ⟨10, 1, 1, 1⟩ ⟨10, 1, 5, 1⟩, LogLine.txPackets 1, LogLine.rxPackets 1,
        LogLine.lostPackets 0 ] ∧
    PrintFlowStats (fun _ => (⟨10, 1, 1, 1⟩, ⟨10, 1, 5, 1⟩)) [(1, silentFlow)] =
      [ LogLine.banner, LogLine.flow 1 ⟨10, 1, 1, 1⟩ ⟨10, 1, 5, 1⟩, LogLine.txPackets 3,
        LogLine.rxPackets 0, LogLine.lostPackets 3 ] := by
  have h := PrintFlowStats_delay_guarded (fun _ => (⟨10, 1, 1, 1⟩, ⟨10, 1, 5, 1⟩))
    [(1, silentFlow), (2, sampleFlow)]
  refine ⟨rfl, ?_, ?_, h.2.2.2.2 1 silentFlow rfl⟩
  · rw [h.2.1]
    simp [silentFlow, sampleFlow, GetSeconds, Seconds]
  · rw [h.2.2.2.1]
    simp [silentFlow, sampleFlow]

/-- The report for a flow received at the instant of its first transmission
shows an infinite throughput. -/
theorem PrintFlowStats_throughput_zero_elapsed :
    throughputValues (PrintFlowStats (fun _ => (⟨10, 1, 1, 1⟩, ⟨10, 1, 5, 1⟩)) [(1, instantFlow)])
      = [DoubleVal.posInf] := by
  rw [throughputValues_PrintFlowStats]
  simp [instantFlow]

/-! ## Walks, reachability and path cost -/

theorem mem_nbrs_of_adj (t : Topology) (u v : NodeId) (h : t.adj u v = true) : v ∈ t.nbrs u := by
  simp only [Topology.adj, List.any_eq_true, beq_iff_eq] at h
  obtain ⟨l, hl, hv⟩ := h
  exact List.mem_filterMap.2 ⟨l, hl, hv⟩

theorem reachable_of_walk (t : Topology) :
    ∀ (p : List NodeId) (a b : NodeId),
      t.isWalk (a :: p) = true → (a :: p).getLast? = some b → t.Reachable a b := by
  intro p
  induction p with
  | nil =>
      intro a b _ hl
      simp at hl
      subst hl
      exact Topology.Reachable.refl a
  | cons c rest ih =>
      intro a b hw hl
      simp only [Topology.isWalk, Bool.and_eq_true] at hw
      rw [List.getLast?_cons_cons] at hl
      exact Topology.Reachable.step a c b hw.1 (ih c b hw.2 hl)

theorem exists_of_any {α : Type} {o : Option α} {P : α → Bool} (h : o.any P = true) :
    ∃ p, o = some p ∧ P p = true := by
  cases o with
  | none => simp at h
  | some p => exact ⟨p, rfl, by simpa using h⟩

theorem foldl_stepCost (w : Link → Nat) (c : Nat) (u v : NodeId) :
    ∀ (ls : List Link) (acc : Option Nat), (∀ l ∈ ls, w l = c) → (acc = none ∨ acc = some c) →
      (ls.foldl (fun best l => if l.other u = some v then minDist best (some (w l)) else best) acc
          = some c ↔
        (acc = some c ∨ ls.any (fun l => l.other u == some v) = true)) := by
  intro ls
  induction ls with
  | nil => intro acc _ _; simp
  | cons l rest ih =>
      intro acc hw hacc
      have hl : w l = c := hw l (List.mem_cons_self _ _)
      have hrest : ∀ x ∈ rest, w x = c := fun x hx => hw x (List.mem_cons_of_mem _ hx)
      rw [List.foldl_cons]
      by_cases hj : l.other u = some v
      · have hacc' : minDist acc (some (w l)) = some c := by
          rcases hacc with h | h <;> simp [h, minDist, hl]
        rw [if_pos hj, hacc', ih (some c) hrest (Or.inr rfl)]
        simp [hj]
      · rw [if_neg hj, ih acc hrest hacc]
        simp [hj]

theorem stepCost_of_adj (t : Topology) (w : Link → Nat) (c : Nat)
    (hw : ∀ l ∈ t.links, w l = c) (u v : NodeId) (h : t.adj u v = true) :
    t.stepCost w u v = some c := by
  unfold Topology.stepCost
  rw [foldl_stepCost w c u v t.links none hw (Or.inl rfl)]
  exact Or.inr h

theorem walkCost_of_walk (t : Topology) (w : Link → Nat) (c : Nat)
    (hw : ∀ l ∈ t.links, w l = c) :
    ∀ p : List NodeId, t.isWalk p = true → t.walkCost w p = some ((p.length - 1) * c) := by
  intro p
  induction p with
  | nil => intro _; simp [Topology.walkCost]
  | cons a rest ih =>
      cases rest with
      | nil => intro _; simp [Topology.walkCost]
      | cons b rest' =>
          intro h
          simp only [Topology.isWalk, Bool.and_eq_true] at h
          have h1 := stepCost_of_adj t w c hw a b h.1
          have h2 := ih h.2
          simp only [Topology.walkCost, h1, h2]
          simp only [List.length_cons, Nat.add_sub_cancel, Option.some.injEq]
          rw [Nat.add_mul, Nat.one_mul, Nat.add_comm]

/-- In a topology where host 0 hangs on router 0 only and router 0 has the
neighbours host 0, host 1, router 1 and router 2, of which only router 1 is
joined to host 4, every walk from host 0 to host 4 has at least three links,
and the only one with three links is host 0, router 0, router 1, host 4. -/
theorem walk_0_to_4 (t : Topology) (h0 : t.nbrs 0 = [7]) (h7 : t.nbrs 7 = [0, 1, 8, 9])
    (h04 : t.adj 0 4 = false) (h74 : t.adj 7 4 = false)
    (h14 : t.adj 1 4 = false) (h94 : t.adj 9 4 = false) :
    ∀ p : List NodeId, t.isWalk p = true → p.head? = some 0 → p.getLast? = some 4 →
      4 ≤ p.length ∧ (p.length = 4 → p = [0, 7, 8, 4]) := by
  intro p hw hh hl
  rcases p with _ | ⟨a, _ | ⟨b, _ | ⟨c, _ | ⟨d, _ | ⟨e, rest⟩⟩⟩⟩⟩
  · simp at hh
  · simp only [List.head?_cons, Option.some.injEq] at hh
    simp only [List.getLast?_singleton, Option.some.injEq] at hl
    rw [hh] at hl
    exact absurd hl (by decide)
  · simp at hh hl
    subst hh; subst hl
    simp [Topology.isWalk, h04] at hw
  · simp at hh hl
    subst hh; subst hl
    simp only [Topology.isWalk, Bool.and_eq_true, Bool.and_true] at hw
    have hb := mem_nbrs_of_adj t 0 b hw.1
    rw [h0] at hb
    simp at hb
    subst hb
    simp [h74] at hw
  · simp at hh hl
    subst hh; subst hl
    simp only [Topology.isWalk, Bool.and_eq_true, Bool.and_true] at hw
    have hb := mem_nbrs_of_adj t 0 b hw.1
    rw [h0] at hb
    simp at hb
    subst hb
    have hc := mem_nbrs_of_adj t 7 c hw.2.1
    rw [h7] at hc
    simp at hc
    rcases hc with hc | hc | hc | hc <;> subst hc
    · simp [h04] at hw
    · simp [h14] at hw
    · simp
    · simp [h94] at hw
  · simp

/-! ## Connectivity and routes of the scripts' graph -/

theorem code_routes_hop : ∀ a, a < 11 → ∀ b, b < 11 →
    routeReaches Code.topology (build Code.topology hopWeight) a b = true ∧
    (a ≠ b → (lookup (build Code.topology hopWeight) a b).isVia = true) := by
  decide!

theorem code_routes_delay : ∀ a, a < 11 → ∀ b, b < 11 →
    routeReaches Code.topology (build Code.topology delayWeight) a b = true ∧
    (a ≠ b → (lookup (build Code.topology delayWeight) a b).isVia = true) := by
  decide!

theorem assignment_routes_hop : ∀ a, a < 11 → ∀ b, b < 11 →
    routeReaches Assignment.topology (build Assignment.topology hopWeight) a b = true ∧
    (a ≠ b → (lookup (build Assignment.topology hopWeight) a b).isVia = true) := by
  decide!

theorem assignment_routes_delay : ∀ a, a < 11 → ∀ b, b < 11 →
    routeReaches Assignment.topology (build Assignment.topology delayWeight) a b = true ∧
    (a ≠ b → (lookup (build Assignment.topology delayWeight) a b).isVia = true) := by
  decide!

theorem reachable_of_routeReaches (t : Topology) (table : List (List RoutingEntry))
    (a b : NodeId) (h : routeReaches t table a b = true) : t.Reachable a b := by
  unfold routeReaches at h
  obtain ⟨p, _, hp⟩ := exists_of_any h
  simp only [Bool.and_eq_true, beq_iff_eq] at hp
  obtain ⟨⟨⟨hw, hh⟩, hl⟩, _⟩ := hp
  cases p with
  | nil => simp at hh
  | cons c rest =>
      simp only [List.head?_cons, Option.some.injEq] at hh
      subst hh
      exact reachable_of_walk t rest c b hw hl

/-- Claim C7: the graph built by either script has 7 hosts, 4 routers and 11
links and is connected: between any two nodes there is a finite path; the
routing table built over it, with hop-count or with delay weights, has a next
hop for every pair of distinct nodes and no `noRoute` entry, and following the
next hops from any node reaches any destination along a walk that visits no
node twice. -/
theorem scripts_graph_connected_and_routed :
    hosts.nodes.length = 7 ∧ routers.nodes.length = 4 ∧
    ∀ t ∈ [Code.topology, Assignment.topology],
      t.nodeCount = 11 ∧ t.links.length = 11 ∧
      ∀ a, a < 11 → ∀ b, b < 11 →
        t.Reachable a b ∧
        ∀ w ∈ [build t hopWeight, build t delayWeight],
          routeReaches t w a b = true ∧
          (a ≠ b → (lookup w a b).isVia = true ∧ lookup w a b ≠ RoutingEntry.noRoute) := by
  refine ⟨by decide, by decide, ?_⟩
  intro t ht
  simp only [List.mem_cons, List.mem_singleton, List.not_mem_nil, or_false] at ht
  rcases ht with ht | ht <;> subst ht
  · refine ⟨by decide, by decide, ?_⟩
    intro a ha b hb
    have h1 := code_routes_hop a ha b hb
    have h2 := code_routes_delay a ha b hb
    refine ⟨reachable_of_routeReaches _ _ a b h1.1, ?_⟩
    intro w hw
    simp only [List.mem_cons, List.mem_singleton, List.not_mem_nil, or_false] at hw
    rcases hw with hw | hw <;> subst hw
    · refine ⟨h1.1, fun hab => ⟨h1.2 hab, ?_⟩⟩
      intro hno
      have := h1.2 hab
      rw [hno] at this
      exact absurd this (by decide)
    · refine ⟨h2.1, fun hab => ⟨h2.2 hab, ?_⟩⟩
      intro hno
      have := h2.2 hab
      rw [hno] at this
      exact absurd this (by decide)
  · refine ⟨by decide, by decide, ?_⟩
    intro a ha b hb
    have h1 := assignment_routes_hop a ha b hb
    have h2 := assignment_routes_delay a ha b hb
    refine ⟨reachable_of_routeReaches _ _ a b h1.1, ?_⟩
    intro w hw
    simp only [List.mem_cons, List.mem_singleton, List.not_mem_nil, or_false] at hw
    rcases hw with hw | hw <;> subst hw
    · refine ⟨h1.1, fun hab => ⟨h1.2 hab, ?_⟩⟩
      intro hno
      have := h1.2 hab
      rw [hno] at this
      exact absurd this (by decide)
    · refine ⟨h2.1, fun hab => ⟨h2.2 hab, ?_⟩⟩
      intro hno
      have := h2.2 hab
      rw [hno] at this
      exact absurd this (by decide)

/-- Witness for C7: in the graph of `code.cc`, host 6 reaches host 2 and the
table has a next hop from host 6 towards host 2. -/
theorem scripts_graph_connected_and_routed_witness :
    Code.topology.Reachable 6 2 ∧
    (lookup (build Code.topology hopWeight) 6 2).isVia = true := by
  have h := (scripts_graph_connected_and_routed.2.2 Code.topology (by simp)).2.2 6 (by decide) 2
    (by decide)
  exact ⟨h.1, ((h.2 (build Code.topology hopWeight) (by simp)).2 (by decide)).1⟩

/-- Claim C8: in the graph of either script every walk from host 0 to host 4
has at least 3 links, costs its number of links in hops and that many
milliseconds in delay, and the only walk with 3 links is host 0, router 0,
router 1, host 4; this is a walk of the graph through two routers, and
following the next hops of the routing table (hop-count or delay weights) from
host 0 reaches host 4 in 3 steps along it, visiting no node twice. -/
theorem shortest_path_host0_host4 :
    ∀ t ∈ [Code.topology, Assignment.topology],
      (∀ p : List NodeId, t.isWalk p = true → p.head? = some (hosts.Get 0) →
        p.getLast? = some (hosts.Get 4) →
          4 ≤ p.length ∧
          (p.length = 4 → p = [hosts.Get 0, routers.Get 0, routers.Get 1, hosts.Get 4]) ∧
          t.walkCost hopWeight p = some (p.length - 1) ∧
          t.walkCost delayWeight p = some ((p.length - 1) * MilliSeconds 1)) ∧
      t.isWalk [hosts.Get 0, routers.Get 0, routers.Get 1, hosts.Get 4] = true ∧
      [hosts.Get 0, routers.Get 0, routers.Get 1, hosts.Get 4].Nodup ∧
      routers.Get 0 ∈ routers.nodes ∧ routers.Get 1 ∈ routers.nodes ∧
      followRoute (build t hopWeight) (hosts.Get 4) 3 (hosts.Get 0) =
        some [hosts.Get 0, routers.Get 0, routers.Get 1, hosts.Get 4] ∧
      followRoute (build t delayWeight) (hosts.Get 4) 3 (hosts.Get 0) =
        some [hosts.Get 0, routers.Get 0, routers.Get 1, hosts.Get 4] := by
  intro t ht
  simp only [List.mem_cons, List.mem_singleton, List.not_mem_nil, or_false] at ht
  have hosts0 : hosts.Get 0 = 0 := by decide
  have hosts4 : hosts.Get 4 = 4 := by decide
  have routers0 : routers.Get 0 = 7 := by decide
  have routers1 : routers.Get 1 = 8 := by decide
  rw [hosts0, hosts4, routers0, routers1]
  rcases ht with ht | ht <;> subst ht
  · refine ⟨?_, by decide, by decide, by decide, by decide, by decide!, by decide!⟩
    intro p hw hh hl
    have h := walk_0_to_4 Code.topology (by decide) (by decide) (by decide) (by decide)
      (by decide) (by decide) p hw hh hl
    refine ⟨h.1, h.2, ?_, ?_⟩
    · have := walkCost_of_walk Code.topology hopWeight 1 (fun _ _ => rfl) p hw
      simpa using this
    · exact walkCost_of_walk Code.topology delayWeight (MilliSeconds 1) (by decide) p hw
  · refine ⟨?_, by decide, by decide, by decide, by decide, by decide!, by decide!⟩
    intro p hw hh hl
    have h := walk_0_to_4 Assignment.topology (by decide) (by decide) (by decide) (by decide)
      (by decide) (by decide) p hw hh hl
    refine ⟨h.1, h.2, ?_, ?_⟩
    · have := walkCost_of_walk Assignment.topology hopWeight 1 (fun _ _ => rfl) p hw
      simpa using this
    · exact walkCost_of_walk Assignment.topology delayWeight (MilliSeconds 1) (by decide) p hw

/-- Witness for C8: in the graph of `assignment_topology.cc` the longer walk
from host 0 to host 4 over router 2, router 3 and router 1 has 5 links and
costs 5 ms. -/
theorem shortest_path_host0_host4_witness :
    Assignment.topology.isWalk [0, 7, 9, 10, 8, 4] = true ∧
    4 ≤ [0, 7, 9, 10, 8, 4].length ∧
    Assignment.topology.walkCost delayWeight [0, 7, 9, 10, 8, 4] = some (5 * MilliSeconds 1) := by
  have h := (shortest_path_host0_host4 Assignment.topology (by simp)).1 [0, 7, 9, 10, 8, 4]
    (by decide) (by decide) (by decide)
  exact ⟨by decide, h.1, h.2.2.2⟩

/-! ## The echo client's schedule -/

/-- Claim C5: a client on its own, started at `s` with interval `d > 0`,
maximum `M` and stop time `T > s`, in a run halted at `simStop ≥ T`, sends
exactly at the instants `s + k * d` for `k` below `min M ceil((T - s) / d)`
(the ceiling written `(T - s + d - 1) / d`), and `k` is below that bound
exactly when `k < M` and `s + k * d < T`; any fuel of at least that many
dispatches plus two finishes the run. For `assignment_topology.cc` the
number of sends is 10, the maximum; for `code.cc` it is 116, below the maximum
120, the send due at 60 s being cancelled. -/
theorem client_sends_until_stop :
    (∀ (cfg : ClientConfig) (s T simStop fuel : Nat),
      0 < cfg.interval → s < T → T ≤ simStop →
      min cfg.maxPackets ((T - s + cfg.interval - 1) / cfg.interval) + 2 ≤ fuel →
        clientSendTimes cfg s T simStop fuel =
          some ((List.range (min cfg.maxPackets ((T - s + cfg.interval - 1) / cfg.interval))).map
            (fun k => s + k * cfg.interval)) ∧
        ∀ k, k < min cfg.maxPackets ((T - s + cfg.interval - 1) / cfg.interval) ↔
          (k < cfg.maxPackets ∧ s + k * cfg.interval < T)) ∧
    (∀ fuel, 12 ≤ fuel →
      (clientSendTimes Assignment.clientConfig (Seconds 2) (Seconds 30) (Seconds 30) fuel).map
        List.length = some 10) ∧
    Assignment.clientConfig.maxPackets = 10 ∧
    (∀ fuel, 118 ≤ fuel →
      (clientSendTimes Code.clientConfig (Seconds 2) (Seconds 60) (Seconds 60) fuel).map
        List.length = some 116) ∧
    Code.clientConfig.maxPackets = 120 ∧
    Seconds 2 + 116 * Code.clientConfig.interval = Seconds 60 := by
  refine ⟨?_, ?_, by decide, ?_, by decide, by decide⟩
  · intro cfg s T simStop fuel hd hT hstop hfuel
    refine ⟨clientSendTimes_eq cfg s T simStop fuel hd hT hstop hfuel, ?_⟩
    intro k
    rw [Nat.lt_min, lt_ceil_iff s T cfg.interval k hd hT]
  · intro fuel hfuel
    have hn : min Assignment.clientConfig.maxPackets
        ((Seconds 30 - Seconds 2 + Assignment.clientConfig.interval - 1) /
          Assignment.clientConfig.interval) = 10 := by decide
    rw [clientSendTimes_eq Assignment.clientConfig (Seconds 2) (Seconds 30) (Seconds 30) fuel
      (by decide) (by decide) (by decide) (by rw [hn]; omega), hn]
    simp
  · intro fuel hfuel
    have hn : min Code.clientConfig.maxPackets
        ((Seconds 60 - Seconds 2 + Code.clientConfig.interval - 1) /
          Code.clientConfig.interval) = 116 := by decide
    rw [clientSendTimes_eq Code.clientConfig (Seconds 2) (Seconds 60) (Seconds 60) fuel
      (by decide) (by decide) (by decide) (by rw [hn]; omega), hn]
    simp

/-- Witness for C5: a client started at 2 with interval 5, maximum 100 and stop
time 13, in a run halted at 60, sends at 2, 7 and 12. -/
theorem client_sends_until_stop_witness :
    (0 < 5 ∧ 2 < 13 ∧ 13 ≤ 60) ∧
    clientSendTimes ⟨100, 5, 1⟩ 2 13 60 5 = some [2, 7, 12] := by
  have h := (client_sends_until_stop.1 ⟨100, 5, 1⟩ 2 13 60 5 (by decide) (by decide) (by decide)
    (by decide)).1
  exact ⟨by decide, by rw [h]; decide⟩

/-! ## The scenario of assignment_topology.cc -/

theorem assignment_noErrorModels : Assignment.netConfig.topo.noErrorModels := by
  unfold Topology.noErrorModels
  decide

theorem assignment_run_reference :
    ((simulate Assignment.netConfig id 0 133).map observe).any (fun o =>
      decide (findFlow Assignment.requestFlow o.1 = some Assignment.requestFlowRecord) &&
      decide ((findFlow Assignment.replyFlow o.1).map (fun f => f.txPackets) = some 10) &&
      decide (drops o.2 = []) &&
      decide (sentTimes Assignment.requestFlow o.2 =
        (List.range 10).map (fun k => Seconds 2 + k * Seconds 1)) &&
      decide (receivedTimes Assignment.requestFlow o.2 =
        (List.range 10).map (fun k => Seconds 2 + k * Seconds 1 + 22114666))) = true := by
  decide!

/-- Claim C3: the run of the scenario of `assignment_topology.cc`, for any
generator and seed and any fuel of at least 133 dispatches, halts; the
client-to-server flow ends with tx = 10, rx = 10, lost = 0 and a positive
throughput; no packet is dropped on any hop; the ten requests are sent at
2 s, 3 s, ..., 11 s and each is received 22114666 ns later, before the server's
stop time and the simulation stop time; the server answers each of them. -/
theorem assignment_scenario_all_delivered (gen : Nat → Nat) (seed fuel : Nat)
    (hfuel : 133 ≤ fuel) :
    ∃ w, simulate Assignment.netConfig gen seed fuel = some w ∧
      findFlow Assignment.requestFlow w.st.net.flows = some Assignment.requestFlowRecord ∧
      Assignment.requestFlowRecord.summary.txPackets = 10 ∧
      Assignment.requestFlowRecord.summary.rxPackets = 10 ∧
      Assignment.requestFlowRecord.summary.lostPackets = 0 ∧
      (∃ q, Assignment.requestFlowRecord.summary.throughput = some q ∧ 0 < q) ∧
      drops w.st.net.log = [] ∧
      sentTimes Assignment.requestFlow w.st.net.log =
        (List.range 10).map (fun k => Seconds 2 + k * Seconds 1) ∧
      receivedTimes Assignment.requestFlow w.st.net.log =
        (List.range 10).map (fun k => Seconds 2 + k * Seconds 1 + 22114666) ∧
      (∀ t ∈ receivedTimes Assignment.requestFlow w.st.net.log,
        t < Assignment.netConfig.serverStop ∧ t < Assignment.netConfig.simStop) ∧
      (findFlow Assignment.replyFlow w.st.net.flows).map (fun f => f.txPackets) = some 10 := by
  have href := assignment_run_reference
  rw [← simulate_noErrorModels Assignment.netConfig assignment_noErrorModels gen seed 133] at href
  cases hsim : simulate Assignment.netConfig gen seed 133 with
  | none =>
      rw [hsim] at href
      simp at href
  | some w =>
      rw [hsim] at href
      simp only [Option.map_some', Option.any_some, Bool.and_eq_true, decide_eq_true_eq,
        observe] at href
      obtain ⟨⟨⟨⟨hf, hrep⟩, hd⟩, hs⟩, hr⟩ := href
      refine ⟨w, run_until_mono _ _ _ _ hfuel _ _ hsim, hf, rfl, rfl, rfl, ?_, hd, hs, hr, ?_,
        hrep⟩
      · refine ⟨(10240 : ℚ) * 8 / (GetSeconds 11022114666 - GetSeconds 2000000000),
          by simp [Flow.summary, Assignment.requestFlowRecord], ?_⟩
        simp only [GetSeconds]
        norm_num
      · rw [hr]
        decide

/-- Witness for C3: the run with a linear congruential generator seeded with
42 and fuel 200. -/
theorem assignment_scenario_all_delivered_witness :
    133 ≤ 200 ∧
    ∃ w, simulate Assignment.netConfig (fun r => (r * 1103515245 + 12345) % 2147483648) 42 200
        = some w ∧
      findFlow Assignment.requestFlow w.st.net.flows = some Assignment.requestFlowRecord ∧
      drops w.st.net.log = [] := by
  obtain ⟨w, h1, h2, _, _, _, _, h7, _⟩ :=
    assignment_scenario_all_delivered (fun r => (r * 1103515245 + 12345) % 2147483648) 42 200
      (by decide)
  exact ⟨by decide, w, h1, h2, h7⟩

/-! ## Checks of the model against the testable properties of the spec -/

/-- An error model with rate 0 never drops. -/
theorem should_drop_rate_zero (den draw : Nat) : should_drop ⟨0, den⟩ draw = false := by
  simp [should_drop]

/-- An error model with rate 1 always drops. -/
theorem should_drop_rate_one (den draw : Nat) (hden : 0 < den) :
    should_drop ⟨den, den⟩ draw = true := by
  simp [should_drop, Nat.mod_lt draw hden]

/-- With the queue capacity of the client's access link set to 0 every
request is dropped at once: tx = 10, rx = 0, lost = 10. -/
theorem assignment_scenario_queue_zero :
    ((simulate { Assignment.netConfig with topo := Assignment.topologyQueueZero } id 0 200).map
      observe).any (fun o =>
        decide ((findFlow Assignment.requestFlow o.1).map
          (fun f => (f.txPackets, f.rxPackets, f.lostPackets)) = some (10, 0, 10)) &&
        decide ((drops o.2).length = 10)) = true := by
  decide!

end NS3Sim
